import Mathlib

/-!
# storj-fluree: a verification development

Shallow embedding of the decision logic of the Storj-Fluree connector
(`fluree/fluree.go`, `storj/storj.go`, `storjSnapshot/storjSnapshot.go`,
`storj_fluree.go`) together with theorems about it.

A Go string is a sequence of bytes.  It is modelled as a `List Char` with one
character per byte, the character whose code is the byte; every literal of the
program is ASCII.  The operations the program applies to strings
(concatenation, comparison, splitting on ".avro", reading digits and signs)
work byte by byte, so the theorems, which hold for all lists of characters,
hold for all byte sequences.

The program's calls on its surroundings (files, directories, the HTTP endpoint,
the clock, the Storj uplink library) are answered by an explicit environment
`World`; functions that make such calls return the list of calls made next to
their Go results.  What the program prints is not modelled, except the message
of `log.Fatalf`.
-/

namespace StorjFluree

/-- A Go `string`: its bytes, one character per byte. -/
abbrev GoString := List Char

/-- A Go `[]byte`.  Byte slices and strings carry the same data; the
conversions `string(b)` and `[]byte(s)` copy it unchanged, so both are modelled
by the same sequences. -/
abbrev Bytes := List Char

/-- A Go `error` value that is not nil, carried as its message. -/
abbrev Error := GoString

/-! ## Go standard library: `strings.Split` -/

/-- Scanning loop of `strings.Split` for a non-empty separator.  `cur` is the
piece collected so far (reversed); the first argument counts the characters of
a separator occurrence that still have to be skipped. -/
def splitLoop (sep : GoString) : Nat → GoString → GoString → List GoString
  | _, cur, [] => [cur.reverse]
  | skip + 1, cur, _ :: t => splitLoop sep skip cur t
  | 0, cur, c :: t =>
      if sep.isPrefixOf (c :: t) then
        cur.reverse :: splitLoop sep (sep.length - 1) [] t
      else
        splitLoop sep 0 (c :: cur) t

/-- Go `strings.Split(s, sep)`: the pieces of `s` between the occurrences of
`sep`, found left to right without overlap.  (An empty `sep`, which the program
never passes, splits ASCII text after every character.) -/
def Split (s sep : GoString) : List GoString :=
  if sep = [] then s.map (fun c => [c]) else splitLoop sep 0 [] s

/-! ## Go standard library: `strconv.Atoi` and `strconv.Itoa` -/

/-- The two causes a `*strconv.NumError` can carry. -/
inductive NumError where
  | ErrSyntax
  | ErrRange
  deriving DecidableEq, Repr

/-- The constant `strconv.IntSize` (size of `int`) on 64-bit targets. -/
def intSize : Nat := 64

/-- Test `'0' <= c && c <= '9'`. -/
def isDigit (c : Char) : Bool := decide (48 ≤ c.toNat) && decide (c.toNat ≤ 57)

/-- The digit value `c - '0'`. -/
def digitVal (c : Char) : Nat := c.toNat - 48

/-- Digit loop of `strconv.ParseUint` for base 10 on `uint64` arithmetic:
`n` is the value accumulated so far, `maxVal` is `1<<bitSize - 1`.  A character
that is not a decimal digit is a syntax error; the loop stops with a range
error as soon as `n*10` (test `n >= cutoff`) or `n*10 + d` (test
`n1 < n || n1 > maxVal` after `n *= 10`) leaves the range. -/
def parseUintLoop (maxVal : Nat) : GoString → Nat → Nat × Option NumError
  | [], n => (n, none)
  | c :: cs, n =>
      if isDigit c then
        if n ≥ (2 ^ 64 - 1) / 10 + 1 then (maxVal, some NumError.ErrRange)
        else
          let n10 := (n * 10) % 2 ^ 64
          let n1 := (n10 + digitVal c) % 2 ^ 64
          if n1 < n10 ∨ n1 > maxVal then (maxVal, some NumError.ErrRange)
          else parseUintLoop maxVal cs n1
      else (0, some NumError.ErrSyntax)

/-- Go `strconv.ParseUint(s, 10, bitSize)`. -/
def ParseUint (s : GoString) (bitSize : Nat) : Nat × Option NumError :=
  if s = [] then (0, some NumError.ErrSyntax)
  else parseUintLoop (2 ^ bitSize - 1) s 0

/-- Second half of `strconv.ParseInt`: the sign has been removed (`neg` tells
whether it was `-`), the rest goes through `ParseUint`; a syntax error gives 0,
a magnitude outside the signed range gives the nearest bound with a range
error. -/
def parseIntSigned (neg : Bool) (body : GoString) (bitSize : Nat) : Int × Option NumError :=
  let r := ParseUint body bitSize
  if r.2 = some NumError.ErrSyntax then (0, r.2)
  else
    let cutoff : Nat := 2 ^ (bitSize - 1)
    if !neg && decide (r.1 ≥ cutoff) then ((cutoff : Int) - 1, some NumError.ErrRange)
    else if neg && decide (r.1 > cutoff) then (-(cutoff : Int), some NumError.ErrRange)
    else (if neg then -(r.1 : Int) else (r.1 : Int), none)

/-- Go `strconv.ParseInt(s, 10, bitSize)`: an empty string is a syntax error;
otherwise one leading `+` or `-` is taken as the sign. -/
def ParseInt (s : GoString) (bitSize : Nat) : Int × Option NumError :=
  match s with
  | [] => (0, some NumError.ErrSyntax)
  | c :: rest =>
      parseIntSigned (c == '-') (if c == '+' || c == '-' then rest else c :: rest) bitSize

/-- Go `strconv.Atoi(s)`, which is `ParseInt(s, 10, 0)` converted to `int`. -/
def Atoi (s : GoString) : Int × Option NumError := ParseInt s intSize

/-- The character `'0' + d`. -/
def digitChar (d : Nat) : Char := Char.ofNat (48 + d)

/-- Digit loop of `strconv.FormatUint` for base 10: peel off the last digit
while `u >= 10`, then write the remaining digit.  The first argument bounds the
number of rounds; `u` rounds are more than the loop needs. -/
def formatBits : Nat → Nat → GoString → GoString
  | 0, u, acc => digitChar (u % 10) :: acc
  | fuel + 1, u, acc =>
      if u ≥ 10 then formatBits fuel (u / 10) (digitChar (u % 10) :: acc)
      else digitChar u :: acc

/-- Decimal representation of a natural number (no sign, no leading zero). -/
def formatDecimal (u : Nat) : GoString := formatBits u u []

/-- Go `strconv.Itoa(i)`. -/
def Itoa (i : Int) : GoString :=
  if i < 0 then '-' :: formatDecimal i.natAbs else formatDecimal i.toNat

/-! ## `fluree.GetLatestSnapshot` -/

/-- The literal ".avro". -/
def avro : GoString := ['.', 'a', 'v', 'r', 'o']

/-- One iteration of the loop of `GetLatestSnapshot`. -/
def latestStep (latestSnapshot : Int) (snapshot : GoString) : Int :=
  let snapshotName := (Split snapshot avro).headD []
  let r := Atoi snapshotName
  let snapshotNum : Int := if r.2.isSome then 0 else r.1
  if snapshotNum > latestSnapshot then snapshotNum else latestSnapshot

/-- Go `fluree.GetLatestSnapshot`. -/
def GetLatestSnapshot (snapshotList : List GoString) : GoString × Option Error :=
  let latestSnapshot := snapshotList.foldl latestStep 0
  (Itoa latestSnapshot ++ avro, none)

/-! ## Data model -/

/-- Go `fluree.ConfigFluree`. -/
structure ConfigFluree where
  IP : GoString
  Network : GoString
  DBID : GoString
  StorageDirectory : GoString
  deriving DecidableEq, Repr

/-- Go `storj.ConfigStorj`. -/
structure ConfigStorj where
  ApiKey : GoString
  SatelliteAddress : GoString
  Bucket : GoString
  UploadPath : GoString
  EncryptionPassphrase : GoString
  deriving DecidableEq, Repr

/-- An `os.FileInfo` as `ioutil.ReadDir` delivers it. -/
structure FileInfo where
  Name : GoString
  IsDir : Bool
  deriving DecidableEq, Repr

/-- An `*http.Response`: its status code and what `ioutil.ReadAll(resp.Body)`
yields (the bytes read and the error of the read, if any). -/
structure Response where
  StatusCode : Nat
  Body : Bytes
  ReadErr : Option Error
  deriving DecidableEq, Repr

/-- What `t.Date()`, `t.Clock()` and `t.Location()` give for a `time.Time`. -/
structure Time where
  year : Int
  month : Nat
  day : Nat
  hour : Nat
  minute : Nat
  second : Nat
  loc : GoString
  deriving DecidableEq, Repr

/-- The arguments of a call `time.Date(year, month, day, hour, min, sec, nsec, loc)`. -/
structure DateArgs where
  year : Int
  month : Nat
  day : Nat
  hour : Nat
  minute : Nat
  second : Nat
  nsec : Nat
  loc : GoString
  deriving DecidableEq, Repr

/-- The environment a run of the program talks to: file system, JSON decoder,
HTTP endpoint, clock and the Storj uplink library.  Each field answers the
calls of one kind; `some err` / `Except.error err` is a non-nil Go error. -/
structure World where
  /-- `os.Open(path)`: the content the handle yields, or the error. -/
  openFile : GoString → Except Error Bytes
  /-- `json.NewDecoder(handle).Decode(&cfg)`: the string that decoding a file
  content stores in the field tagged `key`; `none` when the decoder leaves that
  field untouched (key absent, value of another type, malformed input). -/
  jsonString : Bytes → GoString → Option GoString
  /-- The error `Decode(&cfg)` returns for a file content; `none` is nil. -/
  jsonError : Bytes → Option Error
  /-- `ioutil.ReadDir(path)`. -/
  readDir : GoString → Except Error (List FileInfo)
  /-- `ioutil.ReadFile(path)`. -/
  readFile : GoString → Except Error Bytes
  /-- `http.Post(url, "application/json", nil)`. -/
  httpPost : GoString → Except Error Response
  /-- `time.Now()` as read by `ConnectStorjUploadData`. -/
  now : Time
  /-- `time.Now().Format("2006-01-02_15:04:05")` as read by the test command. -/
  nowStamp : GoString
  /-- The `%q` verb of `fmt` (`strconv.Quote`). -/
  quote : GoString → GoString
  /-- `uplink.RequestAccessWithPassphrase(ctx, satellite, apiKey, passphrase)`. -/
  requestAccess : GoString → GoString → GoString → Option Error
  /-- `uplink.OpenProject(ctx, access)`. -/
  openProject : Option Error
  /-- `project.UploadObject(ctx, bucket, name, opts)`. -/
  uploadObject : GoString → GoString → DateArgs → Option Error
  /-- `upload.Write(data)`, by attempt number (0 is the first attempt): bytes
  written and error. -/
  write : Nat → Bytes → Nat × Option Error
  /-- `upload.Commit()`. -/
  commit : Option Error
  /-- `project.DownloadObject(ctx, bucket, name, opts)`. -/
  downloadObject : GoString → GoString → Option Error
  /-- `ioutil.ReadAll(download)` for the object `bucket`, `name`. -/
  readAll : GoString → GoString → Bytes × Option Error

/-- The calls a run makes on its environment, in order. -/
inductive Event where
  | Open (path : GoString)
  | ReadDir (path : GoString)
  | ReadFile (path : GoString)
  | WriteFile (path : GoString) (data : Bytes)
  | HttpPost (url : GoString)
  | RequestAccess (satellite apiKey passphrase : GoString)
  | OpenProject
  | UploadObject (bucket name : GoString) (expires : DateArgs)
  | Write (data : Bytes)
  | Commit
  | DownloadObject (bucket name : GoString)
  | ReadAll (bucket name : GoString)
  deriving DecidableEq, Repr

/-! ## Package `fluree` -/

/-- Effect of `Decode(&configFluree)` on the record: every field the decoder
finds is overwritten, the others keep their value. -/
def decodeFluree (dec : GoString → Option GoString) (c : ConfigFluree) : ConfigFluree :=
  { IP := (dec "ip".toList).getD c.IP
    Network := (dec "network".toList).getD c.Network
    DBID := (dec "dbid".toList).getD c.DBID
    StorageDirectory := (dec "storageDirectory".toList).getD c.StorageDirectory }

/-- Go `fluree.LoadFlureeConfiguration`.  The call `jsonParser.Decode(&configFluree)`
is a statement: the error it returns (`w.jsonError content`) is dropped, and
the function returns nil once the file has opened. -/
def LoadFlureeConfiguration (w : World) (fullFileName : GoString) :
    List Event × ConfigFluree × Option Error :=
  let configFluree : ConfigFluree := ⟨[], [], [], []⟩
  match w.openFile fullFileName with
  | Except.error err => ([Event.Open fullFileName], configFluree, some err)
  | Except.ok content =>
      let _dropped := w.jsonError content
      ([Event.Open fullFileName], decodeFluree (w.jsonString content) configFluree, none)

/-- Go `fluree.CreateSnapshot`. -/
def CreateSnapshot (w : World) (configFluree : ConfigFluree) :
    List Event × GoString × Option Error :=
  let url := configFluree.IP ++ "fdb/".toList ++ configFluree.Network ++ "/".toList
    ++ configFluree.DBID ++ "/snapshot".toList
  match w.httpPost url with
  | Except.error err => ([Event.HttpPost url], [], some err)
  | Except.ok resp => ([Event.HttpPost url], resp.Body, resp.ReadErr)

/-- Go `fluree.ListSnapshots`. -/
def ListSnapshots (w : World) (configFluree : ConfigFluree) :
    List Event × List GoString × Option Error :=
  let snapshotDirectory := configFluree.StorageDirectory ++ "/".toList ++ configFluree.Network
    ++ "/".toList ++ configFluree.DBID ++ "/snapshot".toList
  match w.readDir snapshotDirectory with
  | Except.error err => ([Event.ReadDir snapshotDirectory], [], some err)
  | Except.ok files =>
      ([Event.ReadDir snapshotDirectory],
       files.foldl (fun snapshotList file => snapshotList ++ [file.Name]) [], none)

/-- Go `fluree.ReadSnapshot`. -/
def ReadSnapshot (w : World) (configFluree : ConfigFluree) (snapshotName : GoString) :
    List Event × Bytes × Option Error :=
  let snapshotFilePath := configFluree.StorageDirectory ++ "/".toList ++ configFluree.Network
    ++ "/".toList ++ configFluree.DBID ++ "/snapshot/".toList ++ snapshotName
  match w.readFile snapshotFilePath with
  | Except.error err => ([Event.ReadFile snapshotFilePath], [], some err)
  | Except.ok data => ([Event.ReadFile snapshotFilePath], data, none)

/-! ## Package `storj` -/

/-- Effect of `Decode(&configStorj)` on the record. -/
def decodeStorj (dec : GoString → Option GoString) (c : ConfigStorj) : ConfigStorj :=
  { ApiKey := (dec "apikey".toList).getD c.ApiKey
    SatelliteAddress := (dec "satellite".toList).getD c.SatelliteAddress
    Bucket := (dec "bucket".toList).getD c.Bucket
    UploadPath := (dec "uploadPath".toList).getD c.UploadPath
    EncryptionPassphrase := (dec "encryptionpassphrase".toList).getD c.EncryptionPassphrase }

/-- Go `storj.LoadStorjConfiguration`.  The call `jsonParser.Decode(&configStorj)`
is a statement: the error it returns (`w.jsonError content`) is dropped, and
the function returns nil once the file has opened. -/
def LoadStorjConfiguration (w : World) (fullFileName : GoString) :
    List Event × ConfigStorj × Option Error :=
  let configStorj : ConfigStorj := ⟨[], [], [], [], []⟩
  match w.openFile fullFileName with
  | Except.error err => ([Event.Open fullFileName], configStorj, some err)
  | Except.ok content =>
      let _dropped := w.jsonError content
      ([Event.Open fullFileName], decodeStorj (w.jsonString content) configStorj, none)

/-- The `if DEBUG` block of `storj.ConnectStorjUploadData`: download the object
again and compare it with the data uploaded.  `uploadPath` is the value of
`configStorj.UploadPath` at that point. -/
def verifyUpload (w : World) (bucket filename uploadPath : GoString) (dataToUpload : Bytes) :
    List Event × Option Error :=
  match w.downloadObject bucket filename with
  | some err =>
      ([Event.DownloadObject bucket filename],
       some ("Could not open download at ".toList ++ w.quote uploadPath ++ ": ".toList ++ err))
  | none =>
      let r := w.readAll bucket filename
      match r.2 with
      | some err =>
          ([Event.DownloadObject bucket filename, Event.ReadAll bucket filename],
           some ("could not read object: ".toList ++ err))
      | none =>
          let fileNameDownload := "test/downloadeddata_".toList ++ ".avro".toList
          let trace := [Event.DownloadObject bucket filename, Event.ReadAll bucket filename,
            Event.WriteFile fileNameDownload r.1]
          if dataToUpload ≠ r.1 then
            (trace, some "error: uploaded data != downloaded data".toList)
          else (trace, none)

/-- Go `storj.ConnectStorjUploadData`; `DEBUG` is the package variable. -/
def ConnectStorjUploadData (w : World) (DEBUG : Bool) (fullFileName : GoString)
    (dataToUpload : Bytes) (snapshotName databaseName : GoString) : List Event × Option Error :=
  let l := LoadStorjConfiguration w fullFileName
  let configStorj := l.2.1
  match l.2.2 with
  | some err => (l.1, some ("loadStorjConfiguration: ".toList ++ err))
  | none =>
  let t1 := l.1 ++ [Event.RequestAccess configStorj.SatelliteAddress configStorj.ApiKey
    configStorj.EncryptionPassphrase]
  match w.requestAccess configStorj.SatelliteAddress configStorj.ApiKey
      configStorj.EncryptionPassphrase with
  | some err => (t1, some ("uplink.RequestAccessWithPassphrase: ".toList ++ err))
  | none =>
  let t2 := t1 ++ [Event.OpenProject]
  match w.openProject with
  | some err => (t2, some ("uplink.OpenProject: ".toList ++ err))
  | none =>
  let filename := configStorj.UploadPath ++ databaseName ++ "_".toList ++ snapshotName
  let uploadPath := configStorj.UploadPath ++ filename
  let t := w.now
  let date : DateArgs := ⟨t.year, t.month, t.day, t.hour, t.minute, t.second + 30, 0, t.loc⟩
  let t3 := t2 ++ [Event.UploadObject configStorj.Bucket filename date]
  match w.uploadObject configStorj.Bucket filename date with
  | some err => (t3, some ("project.UploadObject: ".toList ++ err))
  | none =>
  let t4 := t3 ++ [Event.Write dataToUpload]
  match (w.write 0 dataToUpload).2 with
  | some err => (t4, some ("upload.Write: ".toList ++ err))
  | none =>
  let t5 := t4 ++ [Event.Commit]
  match w.commit with
  | some err => (t5, some ("upload.Commit: ".toList ++ err))
  | none =>
  if DEBUG then
    let v := verifyUpload w configStorj.Bucket filename uploadPath dataToUpload
    (t5 ++ v.1, v.2)
  else (t5, none)

/-! ## Package `storjSnapshot` (the uploader written for `storj.io/storj/lib/uplink`) -/

/-- The calls of `storj.io/storj/lib/uplink` that
`storjSnapshot.ConnectStorjUploadData` makes. -/
structure LegacyUplink where
  /-- `uplink.NewUplink(ctx, &cfg)`. -/
  newUplink : Option Error
  /-- `uplink.ParseAPIKey(apiKey)`. -/
  parseAPIKey : GoString → Option Error
  /-- `uplinkstorj.OpenProject(ctx, satellite, key)`. -/
  openProject : GoString → Option Error
  /-- `proj.SaltedKeyFromPassphrase(ctx, passphrase)`. -/
  saltedKeyFromPassphrase : GoString → Option Error
  /-- `proj.OpenBucket(ctx, bucket, access)`. -/
  openBucket : GoString → Option Error
  /-- `bucket.UploadObject(ctx, path, buf, nil)`, by attempt number, on the
  bytes still unread in `buf`: how many of them the call consumes, and its
  error. -/
  uploadObject : Nat → GoString → Bytes → Nat × Option Error
  /-- `bucket.OpenObject(ctx, path)`. -/
  openObject : GoString → Option Error
  /-- `readBack.DownloadRange(ctx, 0, -1)`. -/
  downloadRange : GoString → Option Error
  /-- `ioutil.ReadAll(strm)` for the object at `path`. -/
  readAll : GoString → Bytes × Option Error

/-- The `if DEBUG` block of `storjSnapshot.ConnectStorjUploadData`. -/
def storjSnapshot.verifyUpload (w : World) (u : LegacyUplink) (uploadPath : GoString)
    (dataToUpload : Bytes) : Option Error :=
  match u.openObject uploadPath with
  | some err =>
      some ("could not open object at ".toList ++ w.quote uploadPath ++ ": ".toList ++ err)
  | none =>
  match u.downloadRange uploadPath with
  | some err => some ("could not initiate download: ".toList ++ err)
  | none =>
  match (u.readAll uploadPath).2 with
  | some err => some ("could not read object: ".toList ++ err)
  | none =>
      if dataToUpload ≠ (u.readAll uploadPath).1 then
        some "error: uploaded data != downloaded data".toList
      else none

/-- Go `storjSnapshot.ConnectStorjUploadData`: the error it returns.  Its
configuration record has the fields of `ConfigStorj` (`APIKey` and `Satellite`
are `ApiKey` and `SatelliteAddress` here) and is loaded the same way. -/
def storjSnapshot.ConnectStorjUploadData (w : World) (u : LegacyUplink) (DEBUG : Bool)
    (fullFileName : GoString) (dataToUpload : Bytes) (snapshotName databaseName : GoString) :
    Option Error :=
  let l := LoadStorjConfiguration w fullFileName
  let configStorj := l.2.1
  match l.2.2 with
  | some err => some ("loadStorjConfiguration: ".toList ++ err)
  | none =>
  match u.newUplink with
  | some err => some ("Could not create new Uplink object: ".toList ++ err)
  | none =>
  match u.parseAPIKey configStorj.ApiKey with
  | some err => some ("Could not parse API key: ".toList ++ err)
  | none =>
  match u.openProject configStorj.SatelliteAddress with
  | some err => some ("Could not open project: ".toList ++ err)
  | none =>
  match u.saltedKeyFromPassphrase configStorj.EncryptionPassphrase with
  | some err => some ("Could not create encryption key: ".toList ++ err)
  | none =>
  match u.openBucket configStorj.Bucket with
  | some err =>
      some ("Could not open bucket ".toList ++ w.quote configStorj.Bucket ++ ": ".toList ++ err)
  | none =>
  let filename := databaseName ++ "_".toList ++ snapshotName
  let uploadPath := configStorj.UploadPath ++ filename
  let first := u.uploadObject 0 uploadPath dataToUpload
  let retried : Option Error :=
    match first.2 with
    | some _ => (u.uploadObject 1 uploadPath (dataToUpload.drop first.1)).2
    | none => none
  match retried with
  | some err => some ("Could not upload: ".toList ++ err)
  | none =>
  if DEBUG then storjSnapshot.verifyUpload w u uploadPath dataToUpload else none

/-! ## Package `main` -/

/-- Go `contains`. -/
def contains (arr : List GoString) (item : GoString) : Bool :=
  match arr with
  | [] => false
  | a :: rest => if a = item then true else contains rest item

/-- How the action of a command ends: it returns an error value to `app.Run`,
or `log.Fatalf` ends the process inside it. -/
inductive ActionResult where
  | returned (err : Option Error)
  | fatal (msg : GoString)
  deriving DecidableEq, Repr

/-- Exit status of the process: `log.Fatalf` exits with 1; `main` calls
`log.Fatalf` when `app.Run` hands back the error of the action; otherwise
`main` returns and the status is 0. -/
def ActionResult.exitStatus : ActionResult → Nat
  | ActionResult.returned none => 0
  | ActionResult.returned (some _) => 1
  | ActionResult.fatal _ => 1

/-- Argument loop of the `snapshot`, `list` and `test` actions: `debug` switches
the debug flag on, any other argument replaces the file name. -/
def fileArgs (default : GoString) (args : List GoString) : Bool × GoString :=
  args.foldl (fun st a => if a = "debug".toList then (true, st.2) else (st.1, a))
    (false, default)

/-- Go constant `dbConfigFile`. -/
def dbConfigFile : GoString := "./config/db_property.json".toList

/-- Go constant `storjConfigFile`. -/
def storjConfigFile : GoString := "./config/storj_config.json".toList

/-- Action of the `snapshot` command. -/
def snapshotAction (w : World) (args : List GoString) : List Event × ActionResult :=
  let a := fileArgs dbConfigFile args
  let l := LoadFlureeConfiguration w a.2
  match l.2.2 with
  | some err => (l.1, ActionResult.fatal ("fluree.LoadFlureeConfiguration: ".toList ++ err))
  | none =>
  let c := CreateSnapshot w l.2.1
  match c.2.2 with
  | some err => (l.1 ++ c.1, ActionResult.fatal ("fluree.CreateSnapshot: ".toList ++ err))
  | none => (l.1 ++ c.1, ActionResult.returned none)

/-- Action of the `list` command. -/
def listAction (w : World) (args : List GoString) : List Event × ActionResult :=
  let a := fileArgs dbConfigFile args
  let l := LoadFlureeConfiguration w a.2
  match l.2.2 with
  | some err => (l.1, ActionResult.fatal ("fluree.LoadFlureeConfiguration: ".toList ++ err))
  | none =>
  let ls := ListSnapshots w l.2.1
  match ls.2.2 with
  | some err => (l.1 ++ ls.1, ActionResult.fatal ("fluree.ListSnapshot: ".toList ++ err))
  | none => (l.1 ++ ls.1, ActionResult.returned none)

/-- Action of the `test` command.  An error of the upload is printed and the
action returns nil. -/
def testAction (w : World) (args : List GoString) : List Event × ActionResult :=
  let a := fileArgs storjConfigFile args
  let dbName := "testdb".toList
  let testData : Bytes := "\x7b\x27testKey\x27: \x27testValue\x27\x7d".toList
  let t0 : List Event :=
    if a.1 then
      [Event.WriteFile ("test/uploaddata_".toList ++ w.nowStamp ++ ".json".toList) testData]
    else []
  let fileName := "test.json".toList
  let u := ConnectStorjUploadData w a.1 a.2 testData fileName dbName
  (t0 ++ u.1, ActionResult.returned none)

/-- Variables of the `store` action that its argument loop sets. -/
structure StoreArgs where
  debug : Bool
  fullFileNameFlureeDB : GoString
  fullFileNameStorj : GoString
  snapshotName : GoString
  foundFirstFileName : Bool
  foundSecondFileName : Bool
  deriving DecidableEq, Repr

/-- One round of the argument loop of the `store` action. -/
def storeArgsStep (st : StoreArgs) (a : GoString) : StoreArgs :=
  if a = "debug".toList then { st with debug := true }
  else if !st.foundFirstFileName then
    { st with fullFileNameFlureeDB := a, foundFirstFileName := true }
  else if !st.foundSecondFileName then
    { st with fullFileNameStorj := a, foundSecondFileName := true }
  else { st with snapshotName := a }

/-- Argument loop of the `store` action. -/
def storeArgs (args : List GoString) : StoreArgs :=
  args.foldl storeArgsStep
    { debug := false, fullFileNameFlureeDB := dbConfigFile, fullFileNameStorj := storjConfigFile,
      snapshotName := [], foundFirstFileName := false, foundSecondFileName := false }

/-- Last part of the `store` action, from `fluree.ReadSnapshot` on: read the
snapshot, upload it; an error of the upload is printed and the action returns
nil. -/
def storeUpload (w : World) (debug : Bool) (flureeConfig : ConfigFluree)
    (fullFileNameStorj snapshotName : GoString) : List Event × ActionResult :=
  let r := ReadSnapshot w flureeConfig snapshotName
  match r.2.2 with
  | some err => (r.1, ActionResult.fatal ("fluree.ReadSnapshot: ".toList ++ err))
  | none =>
  let dbname := flureeConfig.Network ++ "/".toList ++ flureeConfig.DBID
  let u := ConnectStorjUploadData w debug fullFileNameStorj r.2.1 snapshotName dbname
  (r.1 ++ u.1, ActionResult.returned none)

/-- Action of the `store` command. -/
def storeAction (w : World) (args : List GoString) : List Event × ActionResult :=
  let a := storeArgs args
  let l := LoadFlureeConfiguration w a.fullFileNameFlureeDB
  match l.2.2 with
  | some err => (l.1, ActionResult.fatal ("fluree.LoadFlureeConfig: ".toList ++ err))
  | none =>
  let ls := ListSnapshots w l.2.1
  match ls.2.2 with
  | some err => (l.1 ++ ls.1, ActionResult.fatal ("fluree.ListSnapshots: ".toList ++ err))
  | none =>
  let snapshotList := ls.2.1
  if a.snapshotName ≠ [] then
    if contains snapshotList a.snapshotName = false then
      (l.1 ++ ls.1, ActionResult.fatal
        ("Snapshot provided not in snapshot list for this database. Provided: ".toList
          ++ a.snapshotName))
    else
      let r := storeUpload w a.debug l.2.1 a.fullFileNameStorj a.snapshotName
      (l.1 ++ ls.1 ++ r.1, r.2)
  else
    let g := GetLatestSnapshot snapshotList
    match g.2 with
    | some err => (l.1 ++ ls.1, ActionResult.fatal ("fluree.GetLatestSnapshot: ".toList ++ err))
    | none =>
      let r := storeUpload w a.debug l.2.1 a.fullFileNameStorj g.1
      (l.1 ++ ls.1 ++ r.1, r.2)

/-- The four commands of the tool. -/
inductive Command where
  | snapshot
  | list
  | test
  | store
  deriving DecidableEq, Repr

/-- Go `main` for a command line naming one of the commands: the calls made
and the exit status of the process. -/
def main (w : World) (c : Command) (args : List GoString) : List Event × Nat :=
  let r := match c with
    | Command.snapshot => snapshotAction w args
    | Command.list => listAction w args
    | Command.test => testAction w args
    | Command.store => storeAction w args
  (r.1, r.2.exitStatus)

/-- The calls that read a snapshot file or talk to the object store. -/
def Event.isReadOrUpload : Event → Bool
  | Event.ReadFile _ => true
  | Event.RequestAccess _ _ _ => true
  | Event.OpenProject => true
  | Event.UploadObject _ _ _ => true
  | Event.Write _ => true
  | Event.Commit => true
  | Event.DownloadObject _ _ => true
  | Event.ReadAll _ _ => true
  | _ => false

/-! ## Sample environments -/

/-- An environment in which every call succeeds: files open with empty
content, the decoder finds no field, directories are empty, the endpoint
answers 200 with the body "created" and the object store accepts everything. -/
def calmWorld : World :=
  { openFile := fun _ => Except.ok []
    jsonString := fun _ _ => none
    jsonError := fun _ => none
    readDir := fun _ => Except.ok []
    readFile := fun _ => Except.ok []
    httpPost := fun _ => Except.ok ⟨200, "created".toList, none⟩
    now := ⟨2020, 1, 1, 0, 0, 0, "UTC".toList⟩
    nowStamp := "2020-01-01_00:00:00".toList
    quote := fun s => s
    requestAccess := fun _ _ _ => none
    openProject := none
    uploadObject := fun _ _ _ => none
    write := fun _ data => (data.length, none)
    commit := none
    downloadObject := fun _ _ => none
    readAll := fun _ _ => ([], none) }

/-- As `calmWorld`, but the first attempt to write fails; a second attempt
would succeed. -/
def flakyWorld : World :=
  { calmWorld with
    write := fun attempt data =>
      if attempt = 0 then (0, some "transient".toList) else (data.length, none) }

/-- As `calmWorld`, with storage directory "/data", network "net1", database
"db1", and a snapshot directory "/data/net1/db1/snapshot" that holds, in this
order, "2.avro", "10.avro", a subdirectory "old" and "1.avro"; every other
directory is missing. -/
def catalogWorld : World :=
  { calmWorld with
    jsonString := fun _ key =>
      if key = "storageDirectory".toList then some "/data".toList
      else if key = "network".toList then some "net1".toList
      else if key = "dbid".toList then some "db1".toList
      else none
    readDir := fun path =>
      if path = "/data/net1/db1/snapshot".toList then
        Except.ok [⟨"2.avro".toList, false⟩, ⟨"10.avro".toList, false⟩, ⟨"old".toList, true⟩,
          ⟨"1.avro".toList, false⟩]
      else Except.error "no such file or directory".toList }

/-- As `catalogWorld`, but every attempt to write to the object store
fails. -/
def brokenStoreWorld : World :=
  { catalogWorld with write := fun _ _ => (0, some "connection reset".toList) }

/-- As `catalogWorld`, but no file can be opened. -/
def noConfigWorld : World :=
  { catalogWorld with openFile := fun _ => Except.error "no such file or directory".toList }

/-- A legacy uplink on which every call succeeds, except that the first
attempt to upload an object fails after consuming the whole buffer. -/
def flakyUplink : LegacyUplink :=
  { newUplink := none
    parseAPIKey := fun _ => none
    openProject := fun _ => none
    saltedKeyFromPassphrase := fun _ => none
    openBucket := fun _ => none
    uploadObject := fun attempt _ data =>
      if attempt = 0 then (data.length, some "transient".toList) else (data.length, none)
    openObject := fun _ => none
    downloadRange := fun _ => none
    readAll := fun _ => ([], none) }

/-- As `calmWorld`, but the endpoint answers 500 with a body. -/
def world500 : World :=
  { calmWorld with
    httpPost := fun _ => Except.ok ⟨500, "Internal Server Error".toList, none⟩ }

/-- As `calmWorld`, with a configuration file that holds upload path "up/",
network "n" and database "d", and with "5.avro" as the only entry of every
directory. -/
def namedWorld : World :=
  { calmWorld with
    readDir := fun _ => Except.ok [⟨"5.avro".toList, false⟩]
    jsonString := fun _ key =>
      if key = "uploadPath".toList then some "up/".toList
      else if key = "network".toList then some "n".toList
      else if key = "dbid".toList then some "d".toList
      else none }

/-- As `calmWorld`, but only "ok.json" can be opened; its content gives "ip"
a number instead of a string, so the decoder reports an error, and it finds in
it the field "network" and nothing else. -/
def partialWorld : World :=
  { calmWorld with
    openFile := fun path =>
      if path = "ok.json".toList then Except.ok "\x7b\"network\": \"n\", \"ip\": 5\x7d".toList
      else Except.error "no such file or directory".toList
    jsonString := fun _ key => if key = "network".toList then some "n".toList else none
    jsonError := fun _ =>
      some "json: cannot unmarshal number into Go struct field ConfigFluree.ip".toList }

/-! ## Notions used to state the properties of `GetLatestSnapshot` -/

/-- Text of a name before its first occurrence of ".avro"; the whole name when
".avro" does not occur in it. -/
def textBefore : GoString → GoString
  | [] => []
  | c :: t => if avro.isPrefixOf (c :: t) then [] else c :: textBefore t

/-- A purely numeric text: not empty, decimal digits only. -/
def isNumeral (s : GoString) : Bool := !s.isEmpty && s.all isDigit

/-- The natural number a digit string denotes in base 10. -/
def decVal (s : GoString) : Nat := s.foldl (fun n c => n * 10 + digitVal c) 0

/-- Maximum of 0 and the members of a list. -/
def maxOf (l : List Nat) : Nat := l.foldr max 0

/-- Largest value of a 64-bit `int`. -/
def maxInt : Nat := 2 ^ 63 - 1

/-- A purely numeric text that fits an `int` has the number it denotes as
value; any other text has value 0. -/
def numeralValue (t : GoString) : Nat :=
  if isNumeral t && decide (decVal t ≤ maxInt) then decVal t else 0

/-- Value of a text: that of its digits, which a single leading `+` may
precede. -/
def textValue (t : GoString) : Nat :=
  match t with
  | [] => 0
  | c :: ds => if c = '+' then numeralValue ds else numeralValue (c :: ds)

/-- The value of a name: the base-10 non-negative integer that `strconv.Atoi`
parses from the text before the first ".avro", or 0 when that text does not
parse (or parses to a negative number). -/
def parsedValue (name : GoString) : Nat :=
  let r := Atoi (textBefore name)
  if r.2.isSome then 0 else r.1.toNat

/-- A text that is a base-10 non-negative integer: decimal digits, which a
leading `+` may precede. -/
def isNonNegIntegerText (t : GoString) : Bool :=
  isNumeral t ||
    (match t with
     | [] => false
     | c :: ds => c == '+' && isNumeral ds)

/-- The calls of the read-back check. -/
def Event.isReadBack : Event → Bool
  | Event.DownloadObject _ _ => true
  | Event.ReadAll _ _ => true
  | _ => false

/-! ## Sample environments for the read-back check -/

/-- As `calmWorld`, but every object reads back as "payload". -/
def mirrorWorld : World :=
  { calmWorld with readAll := fun _ _ => ("payload".toList, none) }

/-- As `calmWorld`, but every object reads back as "pay". -/
def truncatingWorld : World :=
  { calmWorld with readAll := fun _ _ => ("pay".toList, none) }

/-! ## Canonical snapshot names -/

/-- A canonical numeral: decimal digits only, no leading zero (the numeral "0"
itself apart), denoting a number that fits an `int`. -/
def isCanonical (t : GoString) : Bool :=
  isNumeral t && (decide (t = ['0']) || decide (t.head? ≠ some '0')) && decide (decVal t ≤ maxInt)

/-- As `catalogWorld`, but the snapshot directory holds, in this order,
"2.avro", "10.avro" and "1.avro". -/
def numberedWorld : World :=
  { catalogWorld with
    readDir := fun path =>
      if path = "/data/net1/db1/snapshot".toList then
        Except.ok [⟨"2.avro".toList, false⟩, ⟨"10.avro".toList, false⟩, ⟨"1.avro".toList, false⟩]
      else Except.error "no such file or directory".toList }

/-! ## Go standard library: `time.Date`

Integers are unbounded here.  Go computes the same quantities in 64-bit
arithmetic, which gives the same Unix time whenever that time fits an `int64`,
as it does for every year from -292277022399 up to 292277026596. -/

/-- Go `norm(hi, lo, base)` of package `time`: the pair `nhi, nlo` with
`hi*base + lo == nhi*base + nlo` and `0 <= nlo < base`. -/
def norm (hi lo base : Int) : Int × Int :=
  let n1 := (-lo - 1) / base + 1
  let hi1 := if lo < 0 then hi - n1 else hi
  let lo1 := if lo < 0 then lo + n1 * base else lo
  let n2 := lo1 / base
  if lo1 ≥ base then (hi1 + n2, lo1 - n2 * base) else (hi1, lo1)

/-- Go constant `absoluteZeroYear`. -/
def absoluteZeroYear : Int := -292277022399

/-- Go `daysSinceEpoch(year)`: the days from the absolute epoch to the start of
`year`, counted in cycles of 400, 100 and 4 years and single years. -/
def daysSinceEpoch (year : Int) : Int :=
  let y := year - absoluteZeroYear
  let n400 := y / 400
  let y1 := y - 400 * n400
  let n100 := y1 / 100
  let y2 := y1 - 100 * n100
  let n4 := y2 / 4
  let y3 := y2 - 4 * n4
  146097 * n400 + 36524 * n100 + 1461 * n4 + 365 * y3

/-- Go table `daysBefore`: the days of a non-leap year before each month. -/
def daysBefore : List Int := [0, 31, 59, 90, 120, 151, 181, 212, 243, 273, 304, 334, 365]

/-- Go `isLeap(year)`. -/
def isLeap (year : Int) : Bool :=
  decide (year % 4 = 0) && (decide (year % 100 ≠ 0) || decide (year % 400 = 0))

/-- Go constants `absoluteToInternal + internalToUnix`. -/
def absoluteToUnix : Int := -9223371966579724800 + -62135596800

/-- Middle part of `time.Date`, on fields already normalised: the days since
the absolute epoch, the seconds elapsed, and the shift to Unix time; the result
is the Unix time the fields would have in UTC. -/
def civilSeconds (year month day hour min sec : Int) : Int :=
  let d := daysSinceEpoch year + daysBefore.getD (month - 1).toNat 0
    + (if isLeap year && decide (month ≥ 3) then 1 else 0) + (day - 1)
  d * 86400 + (hour * 3600 + min * 60 + sec) + absoluteToUnix

/-- What `loc.lookup(sec)` gives: the offset east of UTC, in seconds, of the
zone in use at the Unix time `sec`, and the Unix times at which that zone
starts and stops being in use. -/
structure Zone where
  offset : Int
  start : Int
  stop : Int
  deriving DecidableEq, Repr

/-- Go `time.Date(year, month, day, hour, min, sec, nsec, loc)`, for a location
whose `lookup` is given: the Unix time, in seconds, and the nanoseconds of the
result.  The fields are normalised, turned to seconds as if they were UTC, and
the offset of the zone found for that time is taken off; when the time so
obtained lies outside the period of that zone, the offset in use at that time
is taken instead.  (Older releases of Go look up the time just before the start
or the time of the stop of the zone in that case; the two ways agree whenever
the zone found first covers the time obtained, and for a location with one
offset.) -/
def timeDate (lookup : Int → Zone) (a : DateArgs) : Int × Int :=
  let ym := norm a.year ((a.month : Int) - 1) 12
  let sn := norm a.second a.nsec 1000000000
  let ms := norm a.minute sn.1 60
  let hm := norm a.hour ms.1 60
  let dh := norm a.day hm.1 24
  let unix := civilSeconds ym.1 (ym.2 + 1) dh.1 dh.2 hm.2 ms.2
  let z := lookup unix
  let unix1 :=
    if z.offset ≠ 0 then
      let utc := unix - z.offset
      let offset := if utc < z.start ∨ utc ≥ z.stop then (lookup utc).offset else z.offset
      unix - offset
    else unix
  (unix1, sn.2)

/-- Days of a month: the difference of two entries of `daysBefore`, one more
for the February of a leap year. -/
def daysIn (year : Int) (month : Nat) : Int :=
  daysBefore.getD month 0 - daysBefore.getD (month - 1) 0
    + (if isLeap year && decide (month = 2) then 1 else 0)

/-- The fields `t.Date()` and `t.Clock()` of a time `t` are those of the instant
`unix` (in Unix seconds) in a location with the given `lookup`: they form a
date and a time of day, and they are `unix`, moved by the offset in use at
`unix`, read as a calendar date and clock. -/
def isWallClockOf (lookup : Int → Zone) (t : Time) (unix : Int) : Bool :=
  decide (1 ≤ t.month ∧ t.month ≤ 12 ∧ 1 ≤ t.day ∧ (t.day : Int) ≤ daysIn t.year t.month ∧
    t.hour < 24 ∧ t.minute < 60 ∧ t.second < 60) &&
  decide (civilSeconds t.year t.month t.day t.hour t.minute t.second
    = unix + (lookup unix).offset)

/-- The lookup of the location UTC: offset 0 at all times. -/
def utcLookup : Int → Zone := fun _ => ⟨0, -9223372036854775808, 9223372036854775807⟩

/-- The lookup of the location America/New_York for the times between
2020-11-01 and 2022-03-13: Eastern Standard Time (UTC-5) until 2021-03-14
07:00 UTC, Eastern Daylight Time (UTC-4) until 2021-11-07 06:00 UTC, Eastern
Standard Time after that. -/
def newYorkLookup : Int → Zone := fun sec =>
  if sec < 1615705200 then ⟨-18000, 1604210400, 1615705200⟩
  else if sec < 1636264800 then ⟨-14400, 1615705200, 1636264800⟩
  else ⟨-18000, 1636264800, 1647154800⟩

/-- As `calmWorld`, but the clock of the machine shows 2021-11-07 01:15:00 in
its local zone. -/
def fallBackWorld : World :=
  { calmWorld with now := ⟨2021, 11, 7, 1, 15, 0, "Local".toList⟩ }

/-- As `calmWorld`, but the clock shows 2019-12-31 23:59:45 UTC. -/
def newYearWorld : World :=
  { calmWorld with now := ⟨2019, 12, 31, 23, 59, 45, "UTC".toList⟩ }

/-! ## Theorems -/

theorem splitLoop_head (cur s : GoString) :
    (splitLoop avro 0 cur s).headD [] = cur.reverse ++ textBefore s := by
  induction s generalizing cur with
  | nil => simp [splitLoop, textBefore]
  | cons c t ih =>
    by_cases h : avro.isPrefixOf (c :: t) = true
    · simp only [splitLoop, textBefore, h, if_true, List.headD_cons, List.append_nil]
    · simp only [splitLoop, textBefore, h, Bool.false_eq_true, if_false, ih, List.reverse_cons,
        List.append_assoc, List.singleton_append]

theorem Split_head (s : GoString) : (Split s avro).headD [] = textBefore s := by
  have h : avro ≠ [] := by decide
  simp only [Split, h, if_false, splitLoop_head, List.reverse_nil, List.nil_append]

theorem digitVal_le {c : Char} (h : isDigit c = true) : digitVal c ≤ 9 := by
  simp [isDigit] at h
  unfold digitVal
  omega

theorem le_foldl_dec (cs : GoString) (n : Nat) :
    n ≤ cs.foldl (fun n c => n * 10 + digitVal c) n := by
  induction cs generalizing n with
  | nil => simp
  | cons c t ih =>
    simp only [List.foldl_cons]
    exact le_trans (by omega) (ih _)

theorem parseUintLoop_ok (cs : GoString) (n : Nat) (hall : cs.all isDigit = true)
    (hv : cs.foldl (fun n c => n * 10 + digitVal c) n ≤ 2 ^ 64 - 1) :
    parseUintLoop (2 ^ 64 - 1) cs n = (cs.foldl (fun n c => n * 10 + digitVal c) n, none) := by
  induction cs generalizing n with
  | nil => simp [parseUintLoop]
  | cons c t ih =>
    simp only [List.all_cons, Bool.and_eq_true] at hall
    simp only [List.foldl_cons] at hv ⊢
    have hd := digitVal_le hall.1
    have hge := le_foldl_dec t (n * 10 + digitVal c)
    have hlt : n * 10 + digitVal c ≤ 2 ^ 64 - 1 := le_trans hge hv
    norm_num at hlt
    have hmod10 : (n * 10) % 2 ^ 64 = n * 10 :=
      Nat.mod_eq_of_lt (by norm_num; omega)
    have hmod : (n * 10 + digitVal c) % 2 ^ 64 = n * 10 + digitVal c :=
      Nat.mod_eq_of_lt (by norm_num; omega)
    have hn1 : ¬ (n ≥ (2 ^ 64 - 1) / 10 + 1) := by norm_num; omega
    have hn2 : ¬ (n * 10 + digitVal c < n * 10 ∨ n * 10 + digitVal c > 2 ^ 64 - 1) := by
      norm_num; omega
    rw [parseUintLoop]
    simp only [hall.1, if_true, hn1, if_false, hmod10, hmod, hn2]
    exact ih _ hall.2 hv

theorem parseUintLoop_range (cs : GoString) (n : Nat) (hall : cs.all isDigit = true)
    (hn : n ≤ 2 ^ 64 - 1)
    (hv : 2 ^ 64 - 1 < cs.foldl (fun n c => n * 10 + digitVal c) n) :
    parseUintLoop (2 ^ 64 - 1) cs n = (2 ^ 64 - 1, some NumError.ErrRange) := by
  induction cs generalizing n with
  | nil => simp at hv; omega
  | cons c t ih =>
    simp only [List.all_cons, Bool.and_eq_true] at hall
    simp only [List.foldl_cons] at hv
    have hd := digitVal_le hall.1
    rw [parseUintLoop]
    simp only [hall.1, if_true]
    by_cases hn1 : n ≥ (2 ^ 64 - 1) / 10 + 1
    · simp only [hn1, if_true]
    · simp only [hn1, if_false]
      norm_num at hn1
      have hmod10 : (n * 10) % 2 ^ 64 = n * 10 :=
        Nat.mod_eq_of_lt (by norm_num; omega)
      by_cases hbig : n * 10 + digitVal c ≤ 2 ^ 64 - 1
      · have hmod : (n * 10 + digitVal c) % 2 ^ 64 = n * 10 + digitVal c :=
          Nat.mod_eq_of_lt (by norm_num at hbig ⊢; omega)
        have hn2 : ¬ (n * 10 + digitVal c < n * 10 ∨ n * 10 + digitVal c > 2 ^ 64 - 1) := by
          norm_num at hbig ⊢; omega
        simp only [hmod10, hmod, hn2, if_false]
        exact ih _ hall.2 hbig hv
      · norm_num at hbig
        have hmod : (n * 10 + digitVal c) % 2 ^ 64 = n * 10 + digitVal c - 2 ^ 64 := by
          rw [Nat.mod_eq_sub_mod (by norm_num; omega)]
          exact Nat.mod_eq_of_lt (by norm_num; omega)
        have hn2 : (n * 10 + digitVal c - 2 ^ 64 < n * 10 ∨
            n * 10 + digitVal c - 2 ^ 64 > 2 ^ 64 - 1) := by
          left; norm_num; omega
        simp only [hmod10, hmod, hn2, if_true]

theorem parseUintLoop_bad (cs : GoString) (n : Nat) (hall : cs.all isDigit = false) :
    parseUintLoop (2 ^ 64 - 1) cs n = (0, some NumError.ErrSyntax) ∨
    parseUintLoop (2 ^ 64 - 1) cs n = (2 ^ 64 - 1, some NumError.ErrRange) := by
  induction cs generalizing n with
  | nil => simp at hall
  | cons c t ih =>
    rw [parseUintLoop]
    by_cases hc : isDigit c = true
    · have ht : t.all isDigit = false := by
        simpa [List.all_cons, hc] using hall
      simp only [hc, if_true]
      split_ifs
      · right; rfl
      · right; rfl
      · exact ih _ ht
    · simp only [hc]
      left; rfl

theorem ParseUint_cases (body : GoString) :
    (isNumeral body = true ∧ decVal body ≤ 2 ^ 64 - 1 ∧
      ParseUint body 64 = (decVal body, none)) ∨
    (numeralValue body = 0 ∧
      (ParseUint body 64 = (0, some NumError.ErrSyntax) ∨
       ParseUint body 64 = (2 ^ 64 - 1, some NumError.ErrRange))) := by
  by_cases hne : body = []
  · right
    subst hne
    exact ⟨by simp [numeralValue, isNumeral], Or.inl (by simp [ParseUint])⟩
  · have hPU : ParseUint body 64 = parseUintLoop (2 ^ 64 - 1) body 0 := by
      simp [ParseUint, hne]
    by_cases hall : body.all isDigit = true
    · have hnum : isNumeral body = true := by
        cases body with
        | nil => exact absurd rfl hne
        | cons c t => simpa [isNumeral] using hall
      by_cases hv : decVal body ≤ 2 ^ 64 - 1
      · left
        exact ⟨hnum, hv, by rw [hPU]; exact parseUintLoop_ok body 0 hall hv⟩
      · right
        have hv2 : 2 ^ 64 - 1 < List.foldl (fun n c => n * 10 + digitVal c) 0 body := by
          unfold decVal at hv; omega
        have hr := parseUintLoop_range body 0 hall (by norm_num) hv2
        have hbig : ¬ decVal body ≤ maxInt := by
          unfold maxInt; norm_num at hv ⊢; omega
        exact ⟨by simp [numeralValue, hbig], Or.inr (by rw [hPU]; exact hr)⟩
    · right
      have hall2 : body.all isDigit = false := by simpa using hall
      refine ⟨?_, by rw [hPU]; exact parseUintLoop_bad body 0 hall2⟩
      have : isNumeral body = false := by simp [isNumeral, hall2]
      simp [numeralValue, this]

theorem parseIntSigned_pos (body : GoString) :
    (if (parseIntSigned false body 64).2.isSome = true then (0 : Int)
      else (parseIntSigned false body 64).1) = (numeralValue body : Int) := by
  simp only [parseIntSigned]
  rcases ParseUint_cases body with ⟨hnum, hv, hPU⟩ | ⟨h0, hPU | hPU⟩
  · rw [hPU]
    by_cases hr : 9223372036854775808 ≤ decVal body
    · have hbig : ¬ decVal body ≤ maxInt := by
        unfold maxInt; norm_num; omega
      simp [hr, numeralValue, hbig]
    · have hsmall : decVal body ≤ maxInt := by
        unfold maxInt; norm_num; omega
      simp [hr, numeralValue, hsmall, hnum]
  · rw [hPU, h0]; simp
  · rw [hPU, h0]; simp

theorem parseIntSigned_neg (body : GoString) :
    (if (parseIntSigned true body 64).2.isSome = true then (0 : Int)
      else (parseIntSigned true body 64).1) ≤ 0 := by
  simp only [parseIntSigned]
  rcases ParseUint_cases body with ⟨hnum, hv, hPU⟩ | ⟨h0, hPU | hPU⟩
  · rw [hPU]
    by_cases hr : 9223372036854775808 < decVal body
    · simp [hr]
    · simp [hr]
  · rw [hPU]; simp
  · rw [hPU]; simp

theorem isNumeral_cons_false {c : Char} (ds : GoString) (h : isDigit c = false) :
    isNumeral (c :: ds) = false := by
  simp [isNumeral, h]

theorem latestStep_eq (acc : Nat) (s : GoString) :
    latestStep (acc : Int) s = ((max acc (textValue (textBefore s)) : Nat) : Int) := by
  simp only [latestStep, Split_head, Atoi, intSize]
  cases textBefore s with
  | nil => simp [ParseInt, textValue]
  | cons c ds =>
    by_cases hp : c = '+'
    · subst hp
      have h1 : (('+' : Char) == '-') = false := by decide
      have h2 : (('+' : Char) == '+') = true := by decide
      simp only [ParseInt, h1, h2, Bool.or_false, if_true, textValue]
      rw [parseIntSigned_pos ds]
      split_ifs with h
      · push_cast at h ⊢; omega
      · push_cast at h ⊢; omega
    · by_cases hm : c = '-'
      · subst hm
        have h1 : (('-' : Char) == '-') = true := by decide
        have h2 : (('-' : Char) == '+') = false := by decide
        have hd : isDigit '-' = false := by decide
        have hv : numeralValue ('-' :: ds) = 0 := by
          simp [numeralValue, isNumeral_cons_false ds hd]
        have hneg := parseIntSigned_neg ds
        simp only [ParseInt, h1, h2, Bool.or_true, if_true, textValue, hp, if_false, hv]
        revert hneg
        generalize (if (parseIntSigned true ds 64).2.isSome = true then (0 : Int)
          else (parseIntSigned true ds 64).1) = x
        intro hx
        split_ifs with h
        · omega
        · simp
      · have h1 : (c == '-') = false := by simpa using hm
        have h2 : (c == '+') = false := by simpa using hp
        simp only [ParseInt, h1, h2, Bool.or_false, Bool.false_eq_true, if_false, textValue, hp]
        rw [parseIntSigned_pos (c :: ds)]
        split_ifs with h
        · push_cast at h ⊢; omega
        · push_cast at h ⊢; omega

theorem foldl_latestStep (l : List GoString) (acc : Nat) :
    l.foldl latestStep (acc : Int) =
      ((max acc (maxOf (l.map (fun s => textValue (textBefore s)))) : Nat) : Int) := by
  induction l generalizing acc with
  | nil => simp [maxOf]
  | cons s t ih =>
    simp only [List.foldl_cons, latestStep_eq, ih, List.map_cons, maxOf, List.foldr_cons]
    rw [max_assoc]

theorem Itoa_natCast (n : Nat) : Itoa (n : Int) = formatDecimal n := by
  simp [Itoa]

theorem GetLatestSnapshot_eq (l : List GoString) :
    GetLatestSnapshot l =
      (formatDecimal (maxOf (l.map (fun s => textValue (textBefore s)))) ++ avro, none) := by
  have h := foldl_latestStep l 0
  simp only [Nat.cast_zero, Nat.zero_max] at h
  simp only [GetLatestSnapshot, h, Itoa_natCast]

theorem isDigit_ne_dot {c : Char} (h : isDigit c = true) : c ≠ '.' := by
  intro hc
  subst hc
  exact absurd h (by decide)

theorem textBefore_numeral (ds : GoString) (h : ds.all isDigit = true) :
    textBefore (ds ++ avro) = ds := by
  induction ds with
  | nil => decide
  | cons c t ih =>
    simp only [List.all_cons, Bool.and_eq_true] at h
    have hc : ¬ ('.' = c) := fun e => isDigit_ne_dot h.1 e.symm
    have hpre : avro.isPrefixOf (c :: (t ++ avro)) = false := by
      simp [avro, List.isPrefixOf, hc]
    show textBefore (c :: (t ++ avro)) = c :: t
    rw [textBefore, hpre, ih h.2]
    rfl

theorem maxOf_mem (l : List Nat) (h : l ≠ []) : maxOf l ∈ l := by
  induction l with
  | nil => exact absurd rfl h
  | cons a t ih =>
    by_cases ht : t = []
    · subst ht
      simp [maxOf]
    · have := ih ht
      simp only [maxOf, List.foldr_cons, List.mem_cons] at this ⊢
      rcases le_total a (List.foldr max 0 t) with hle | hle
      · right; rw [max_eq_right hle]; exact this
      · left; rw [max_eq_left hle]

theorem le_maxOf (l : List Nat) (n : Nat) (h : n ∈ l) : n ≤ maxOf l := by
  induction l with
  | nil => simp at h
  | cons a t ih =>
    simp only [maxOf, List.foldr_cons, List.mem_cons] at h ⊢
    rcases h with h | h
    · subst h; exact le_max_left _ _
    · exact le_trans (ih h) (le_max_right _ _)

theorem textValue_numeral (d : GoString) (hnum : isNumeral d = true) (hr : decVal d ≤ maxInt) :
    textValue d = decVal d := by
  cases d with
  | nil => simp [isNumeral] at hnum
  | cons c ds =>
    have hc : isDigit c = true := by
      simp [isNumeral] at hnum
      exact hnum.1
    have hp : c ≠ '+' := by
      intro e
      subst e
      exact absurd hc (by decide)
    simp [textValue, hp, numeralValue, hnum, hr]

theorem textValue_of_not_integer (t : GoString) (h : isNonNegIntegerText t = false) :
    textValue t = 0 := by
  cases t with
  | nil => rfl
  | cons c ds =>
    simp only [isNonNegIntegerText, Bool.or_eq_false_iff, Bool.and_eq_false_iff] at h
    by_cases hp : c = '+'
    · have hds : isNumeral ds = false := by
        rcases h.2 with h2 | h2
        · simp [hp] at h2
        · exact h2
      simp [textValue, hp, numeralValue, hds]
    · simp [textValue, hp, numeralValue, h.1]

theorem parsedValue_eq (name : GoString) : parsedValue name = textValue (textBefore name) := by
  have h := latestStep_eq 0 name
  simp only [latestStep, Split_head, Nat.cast_zero, Nat.zero_max] at h
  simp only [parsedValue]
  split_ifs at h ⊢ <;> omega

theorem digitVal_digitChar (d : Nat) (h : d < 10) : digitVal (digitChar d) = d := by
  interval_cases d <;> rfl

theorem isDigit_digitChar (d : Nat) (h : d < 10) : isDigit (digitChar d) = true := by
  interval_cases d <;> rfl

theorem formatBits_acc (fuel u : Nat) (acc : GoString) :
    formatBits fuel u acc = formatBits fuel u [] ++ acc := by
  induction fuel generalizing u acc with
  | zero => simp [formatBits]
  | succ k ih =>
    simp only [formatBits]
    split_ifs
    · rw [ih (u / 10) (digitChar (u % 10) :: acc), ih (u / 10) [digitChar (u % 10)]]
      simp
    · simp

theorem decVal_snoc (xs : GoString) (c : Char) :
    decVal (xs ++ [c]) = decVal xs * 10 + digitVal c := by
  simp [decVal, List.foldl_append]

theorem all_isDigit_formatBits (fuel u : Nat) (h : u ≤ fuel) :
    (formatBits fuel u []).all isDigit = true := by
  induction fuel generalizing u with
  | zero =>
    have hu : u = 0 := by omega
    subst hu
    rfl
  | succ k ih =>
    simp only [formatBits]
    split_ifs with h10
    · rw [formatBits_acc, List.all_append, ih (u / 10) (by omega)]
      simp [isDigit_digitChar (u % 10) (Nat.mod_lt _ (by norm_num))]
    · simp [isDigit_digitChar u (by omega)]

theorem decVal_formatBits (fuel u : Nat) (h : u ≤ fuel) :
    decVal (formatBits fuel u []) = u := by
  induction fuel generalizing u with
  | zero =>
    have hu : u = 0 := by omega
    subst hu
    rfl
  | succ k ih =>
    simp only [formatBits]
    split_ifs with h10
    · rw [formatBits_acc, decVal_snoc, ih (u / 10) (by omega),
        digitVal_digitChar (u % 10) (Nat.mod_lt _ (by norm_num))]
      omega
    · simp [decVal, digitVal_digitChar u (by omega)]

theorem formatBits_ne_nil (fuel u : Nat) : formatBits fuel u [] ≠ [] := by
  cases fuel with
  | zero => simp [formatBits]
  | succ k =>
    simp only [formatBits]
    split_ifs
    · rw [formatBits_acc]
      simp
    · simp

theorem decVal_formatDecimal (n : Nat) : decVal (formatDecimal n) = n :=
  decVal_formatBits n n (le_refl n)

theorem isNumeral_formatDecimal (n : Nat) : isNumeral (formatDecimal n) = true := by
  have h1 := all_isDigit_formatBits n n (le_refl n)
  have h2 := formatBits_ne_nil n n
  unfold formatDecimal
  cases hf : formatBits n n [] with
  | nil => exact absurd hf h2
  | cons c t =>
    rw [hf] at h1
    simpa [isNumeral] using h1

/-! ### C1 -/

/-- C1, refuted as stated: the single name "9223372036854775808.avro" is purely
numeric, yet `GetLatestSnapshot` returns "0.avro" for it (the number does not
fit an `int`, `strconv.Atoi` reports a range error and the loop counts the name
as 0), not the name of the maximum. -/
theorem GetLatestSnapshot_numeric_overflow :
    isNumeral "9223372036854775808".toList = true ∧
    GetLatestSnapshot ["9223372036854775808".toList ++ avro] = ("0.avro".toList, none) ∧
    formatDecimal (decVal "9223372036854775808".toList) ++ avro
      = "9223372036854775808.avro".toList ∧
    GetLatestSnapshot ["9223372036854775808".toList ++ avro] ≠
      (formatDecimal (maxOf (["9223372036854775808".toList].map decVal)) ++ avro, none) := by
  decide

/-- C1, amended: for every non-empty sequence of names "<n>.avro" with <n>
purely numeric (decimal digits only) and at most 2^63 - 1, `GetLatestSnapshot`
returns, with a nil error, the name "<m>.avro" where m is the maximum of the
n's, written in decimal. -/
theorem GetLatestSnapshot_numeric (ns : List GoString) (hne : ns ≠ [])
    (hnum : ∀ d ∈ ns, isNumeral d = true) (hrange : ∀ d ∈ ns, decVal d ≤ maxInt) :
    ∃ m, m ∈ ns.map decVal ∧ (∀ n ∈ ns.map decVal, n ≤ m) ∧
      GetLatestSnapshot (ns.map (fun d => d ++ avro)) = (formatDecimal m ++ avro, none) := by
  have hmap : (ns.map (fun d => d ++ avro)).map (fun s => textValue (textBefore s))
      = ns.map decVal := by
    rw [List.map_map]
    apply List.map_congr_left
    intro d hd
    have hall : d.all isDigit = true := by
      have := hnum d hd
      simp only [isNumeral, Bool.and_eq_true] at this
      exact this.2
    simp only [Function.comp, textBefore_numeral d hall]
    exact textValue_numeral d (hnum d hd) (hrange d hd)
  refine ⟨maxOf (ns.map decVal), maxOf_mem _ (by simpa using hne), le_maxOf _, ?_⟩
  rw [GetLatestSnapshot_eq, hmap]

/-- Instance of `GetLatestSnapshot_numeric` on the names "3.avro", "10.avro"
and "007.avro". -/
theorem GetLatestSnapshot_numeric_witness :
    ∃ m, m ∈ ["3".toList, "10".toList, "007".toList].map decVal ∧
      (∀ n ∈ ["3".toList, "10".toList, "007".toList].map decVal, n ≤ m) ∧
      GetLatestSnapshot (["3".toList, "10".toList, "007".toList].map (fun d => d ++ avro))
        = (formatDecimal m ++ avro, none) :=
  GetLatestSnapshot_numeric ["3".toList, "10".toList, "007".toList]
    (by decide) (by decide) (by decide)

/-! ### C2 -/

/-- C2: for every sequence of names `GetLatestSnapshot` returns a nil error and
the name itoa(M) ++ ".avro", M being the maximum of 0 and the values of the
names; the value of a name is the integer parsed from the text before its first
".avro" (0 when the text does not parse), which is the number denoted by its
decimal digits, with or without a leading "+", when that number fits an `int`
and 0 for every other text; and ["3.avro", "abc.avro", "10.avro", "2.avro"]
gives "10.avro". -/
theorem GetLatestSnapshot_max_of_values :
    (∀ l : List GoString,
      GetLatestSnapshot l = (Itoa (maxOf (l.map parsedValue) : Nat) ++ avro, none)) ∧
    (∀ name : GoString, parsedValue name = textValue (textBefore name)) ∧
    GetLatestSnapshot ["3.avro".toList, "abc.avro".toList, "10.avro".toList, "2.avro".toList]
      = ("10.avro".toList, none) := by
  refine ⟨?_, parsedValue_eq, by decide⟩
  intro l
  have hmap : l.map parsedValue = l.map (fun s => textValue (textBefore s)) :=
    List.map_congr_left (fun s _ => parsedValue_eq s)
  rw [GetLatestSnapshot_eq, Itoa_natCast, hmap]

/-! ### C3 -/

/-- C3: for every sequence, the empty one included, in which no name has a
base-10 non-negative integer (decimal digits, with or without a leading "+") as
its text before ".avro", `GetLatestSnapshot` returns "0.avro" with a nil
error. -/
theorem GetLatestSnapshot_nonNumeric (l : List GoString)
    (h : ∀ name ∈ l, isNonNegIntegerText (textBefore name) = false) :
    GetLatestSnapshot l = ("0.avro".toList, none) := by
  have hzero : maxOf (l.map (fun s => textValue (textBefore s))) = 0 := by
    induction l with
    | nil => rfl
    | cons a t ih =>
      have ha := textValue_of_not_integer _ (h a (List.mem_cons_self a t))
      have ht := ih (fun name hn => h name (List.mem_cons_of_mem a hn))
      simp only [List.map_cons, maxOf, List.foldr_cons] at ht ⊢
      rw [ha, ht]
      rfl
  rw [GetLatestSnapshot_eq, hzero]
  decide

/-- Instances of `GetLatestSnapshot_nonNumeric`: the empty sequence, and names
none of which is "0.avro": "abc.avro", "snap", "-4.avro" and "1x.avro". -/
theorem GetLatestSnapshot_nonNumeric_witness :
    GetLatestSnapshot [] = ("0.avro".toList, none) ∧
    "0.avro".toList ∉ ["abc.avro".toList, "snap".toList, "-4.avro".toList, "1x.avro".toList] ∧
    GetLatestSnapshot ["abc.avro".toList, "snap".toList, "-4.avro".toList, "1x.avro".toList]
      = ("0.avro".toList, none) :=
  ⟨GetLatestSnapshot_nonNumeric [] (by decide),
   by decide,
   GetLatestSnapshot_nonNumeric
    ["abc.avro".toList, "snap".toList, "-4.avro".toList, "1x.avro".toList] (by decide)⟩

/-! ### C4 -/

theorem LoadStorjConfiguration_trace (w : World) (f : GoString) :
    (LoadStorjConfiguration w f).1 = [Event.Open f] := by
  unfold LoadStorjConfiguration
  cases w.openFile f <;> rfl

theorem verifyUpload_no_upload (w : World) (b f up : GoString) (d : Bytes)
    (b' n : GoString) (x : DateArgs) : Event.UploadObject b' n x ∉ (verifyUpload w b f up d).1 := by
  simp only [verifyUpload]
  split
  · simp
  · split
    · simp
    · split <;> simp

theorem ConnectStorjUploadData_object_name (w : World) (dbg : Bool) (f : GoString) (d : Bytes)
    (sn dn b n : GoString) (x : DateArgs)
    (h : Event.UploadObject b n x ∈ (ConnectStorjUploadData w dbg f d sn dn).1) :
    n = (LoadStorjConfiguration w f).2.1.UploadPath ++ dn ++ "_".toList ++ sn := by
  have hv := verifyUpload_no_upload w
  simp only [ConnectStorjUploadData, LoadStorjConfiguration_trace] at h
  repeat' split at h
  all_goals simp at h
  all_goals first
    | (rw [h.2.1]; simp)
    | (rcases h with h | h
       · rw [h.2.1]; simp
       · exact absurd h (hv _ _ _ _ _ _ _))

theorem LoadFlureeConfiguration_trace (w : World) (f : GoString) :
    (LoadFlureeConfiguration w f).1 = [Event.Open f] := by
  unfold LoadFlureeConfiguration
  cases w.openFile f <;> rfl

theorem ListSnapshots_trace (w : World) (c : ConfigFluree) :
    (ListSnapshots w c).1 = [Event.ReadDir (c.StorageDirectory ++ "/".toList ++ c.Network
      ++ "/".toList ++ c.DBID ++ "/snapshot".toList)] := by
  simp only [ListSnapshots]
  cases w.readDir _ <;> rfl

theorem ReadSnapshot_trace (w : World) (c : ConfigFluree) (sn : GoString) :
    (ReadSnapshot w c sn).1 = [Event.ReadFile (c.StorageDirectory ++ "/".toList ++ c.Network
      ++ "/".toList ++ c.DBID ++ "/snapshot/".toList ++ sn)] := by
  simp only [ReadSnapshot]
  cases w.readFile _ <;> rfl

theorem storeUpload_object_name (w : World) (dbg : Bool) (c : ConfigFluree)
    (f sn b n : GoString) (x : DateArgs)
    (h : Event.UploadObject b n x ∈ (storeUpload w dbg c f sn).1) :
    n = (LoadStorjConfiguration w f).2.1.UploadPath ++ c.Network ++ "/".toList ++ c.DBID
      ++ "_".toList ++ sn := by
  simp only [storeUpload] at h
  split at h
  · simp [ReadSnapshot_trace] at h
  · simp only [ReadSnapshot_trace, List.mem_append, List.mem_singleton] at h
    rcases h with h | h
    · exact absurd h (by simp)
    · rw [ConnectStorjUploadData_object_name w dbg f _ sn _ b n x h]
      simp

/-- C4: every `UploadObject` call the store command makes names the object
uploadPath ++ network ++ "/" ++ dbid ++ "_" ++ identifier, where uploadPath is
the loaded Storj configuration's upload path, network and dbid are the loaded
Fluree configuration's, and identifier is the snapshot the command resolved
(the one given on the command line, else the latest). -/
theorem store_object_name (w : World) (args : List GoString) (b n : GoString) (x : DateArgs)
    (h : Event.UploadObject b n x ∈ (storeAction w args).1) :
    n = (LoadStorjConfiguration w (storeArgs args).fullFileNameStorj).2.1.UploadPath
      ++ (LoadFlureeConfiguration w (storeArgs args).fullFileNameFlureeDB).2.1.Network
      ++ "/".toList
      ++ (LoadFlureeConfiguration w (storeArgs args).fullFileNameFlureeDB).2.1.DBID
      ++ "_".toList
      ++ (if (storeArgs args).snapshotName ≠ [] then (storeArgs args).snapshotName
          else (GetLatestSnapshot (ListSnapshots w
            (LoadFlureeConfiguration w (storeArgs args).fullFileNameFlureeDB).2.1).2.1).1) := by
  simp only [storeAction, LoadFlureeConfiguration_trace, ListSnapshots_trace] at h
  repeat' split at h
  all_goals first
    | (exfalso; simp at h; done)
    | (simp only [List.mem_append, List.mem_singleton, List.mem_cons] at h
       rcases h with h | h
       · exact absurd h (by simp)
       · rw [storeUpload_object_name w _ _ _ _ b n x h]
         simp [*])

/-- Instance of `store_object_name`: upload path "up/", network "n", database
"d" and snapshot "5.avro" give the object name "up/n/d_5.avro". -/
theorem store_object_name_witness :
    Event.UploadObject [] "up/n/d_5.avro".toList ⟨2020, 1, 1, 0, 0, 30, 0, "UTC".toList⟩
      ∈ (storeAction namedWorld []).1 ∧
    "up/n/d_5.avro".toList = "up/".toList ++ "n".toList ++ "/".toList ++ "d".toList
      ++ "_".toList ++ "5.avro".toList :=
  ⟨by decide,
   store_object_name namedWorld [] [] "up/n/d_5.avro".toList
     ⟨2020, 1, 1, 0, 0, 30, 0, "UTC".toList⟩ (by decide)⟩

/-! ### C5 -/

theorem contains_iff (arr : List GoString) (item : GoString) :
    contains arr item = true ↔ item ∈ arr := by
  induction arr with
  | nil => simp [contains]
  | cons a t ih =>
    by_cases h : a = item
    · simp [contains, h]
    · have h' : ¬ item = a := fun e => h e.symm
      simp [contains, h, h', ih]

/-- C5: in the store command, when the configuration loads and the snapshot
directory lists, a non-empty snapshot name given on the command line that is
not in the listed catalog makes the command end in `log.Fatalf` with the
"not in snapshot list" message (exit status 1) after exactly two calls, the
opening of the configuration file and the directory listing: no snapshot file
is read, nothing is uploaded, and the latest snapshot is not used instead. -/
theorem store_rejects_unlisted (w : World) (args : List GoString)
    (hl : (LoadFlureeConfiguration w (storeArgs args).fullFileNameFlureeDB).2.2 = none)
    (hs : (ListSnapshots w
      (LoadFlureeConfiguration w (storeArgs args).fullFileNameFlureeDB).2.1).2.2 = none)
    (hne : (storeArgs args).snapshotName ≠ [])
    (hnot : (storeArgs args).snapshotName ∉ (ListSnapshots w
      (LoadFlureeConfiguration w (storeArgs args).fullFileNameFlureeDB).2.1).2.1) :
    (storeAction w args).2 = ActionResult.fatal
      ("Snapshot provided not in snapshot list for this database. Provided: ".toList
        ++ (storeArgs args).snapshotName) ∧
    (main w Command.store args).2 = 1 ∧
    (storeAction w args).1 =
      (LoadFlureeConfiguration w (storeArgs args).fullFileNameFlureeDB).1 ++
      (ListSnapshots w (LoadFlureeConfiguration w (storeArgs args).fullFileNameFlureeDB).2.1).1 ∧
    (storeAction w args).1.all (fun e => !e.isReadOrUpload) = true := by
  have hc : contains (ListSnapshots w
      (LoadFlureeConfiguration w (storeArgs args).fullFileNameFlureeDB).2.1).2.1
      (storeArgs args).snapshotName = false := by
    cases hcon : contains (ListSnapshots w
      (LoadFlureeConfiguration w (storeArgs args).fullFileNameFlureeDB).2.1).2.1
      (storeArgs args).snapshotName with
    | false => rfl
    | true => exact absurd ((contains_iff _ _).1 hcon) hnot
  have hact : storeAction w args =
      ((LoadFlureeConfiguration w (storeArgs args).fullFileNameFlureeDB).1 ++
        (ListSnapshots w (LoadFlureeConfiguration w (storeArgs args).fullFileNameFlureeDB).2.1).1,
       ActionResult.fatal
        ("Snapshot provided not in snapshot list for this database. Provided: ".toList
          ++ (storeArgs args).snapshotName)) := by
    simp only [storeAction, hl, hs, hc, hne, ne_eq, not_false_eq_true, if_true]
  refine ⟨by rw [hact], ?_, by rw [hact], ?_⟩
  · simp only [main, hact]
    rfl
  · rw [hact]
    simp [LoadFlureeConfiguration_trace, ListSnapshots_trace, Event.isReadOrUpload]

/-- Instance of `store_rejects_unlisted`: the catalog is "2.avro", "10.avro",
"old", "1.avro" and the command line asks for "9.avro". -/
theorem store_rejects_unlisted_witness :
    (storeArgs ["db.json".toList, "storj.json".toList, "9.avro".toList]).snapshotName
      = "9.avro".toList ∧
    (storeAction catalogWorld ["db.json".toList, "storj.json".toList, "9.avro".toList]).2 =
      ActionResult.fatal
        "Snapshot provided not in snapshot list for this database. Provided: 9.avro".toList ∧
    (storeAction catalogWorld ["db.json".toList, "storj.json".toList, "9.avro".toList]).1 =
      [Event.Open "db.json".toList, Event.ReadDir "/data/net1/db1/snapshot".toList] :=
  have h := store_rejects_unlisted catalogWorld
    ["db.json".toList, "storj.json".toList, "9.avro".toList]
    (by decide) (by decide) (by decide) (by decide)
  ⟨by decide, h.1, h.2.2.1⟩

/-! ### C6 -/

theorem ConnectStorjUploadData_write_failure (w : World) (dbg : Bool) (f : GoString) (d : Bytes)
    (sn dn : GoString) (err : Error) (data : Bytes)
    (hw : (w.write 0 d).2 = some err)
    (h : Event.Write data ∈ (ConnectStorjUploadData w dbg f d sn dn).1) :
    (ConnectStorjUploadData w dbg f d sn dn).2 = some ("upload.Write: ".toList ++ err) := by
  simp only [ConnectStorjUploadData, LoadStorjConfiguration_trace] at h ⊢
  repeat' split at h
  all_goals first
    | (exfalso; simp at h; done)
    | simp_all

/-- C6, the defect: with a store whose first write fails and whose second
write would succeed, `storj.ConnectStorjUploadData` calls `upload.Write` once
and returns the error "upload.Write: transient"; the uploader of package
`storjSnapshot`, under the same single failure, tries again and returns nil. -/
theorem ConnectStorjUploadData_no_retry :
    (flakyWorld.write 0 "payload".toList).2 = some "transient".toList ∧
    (flakyWorld.write 1 "payload".toList).2 = none ∧
    ConnectStorjUploadData flakyWorld false "storj.json".toList "payload".toList
        "5.avro".toList "n/d".toList =
      ([Event.Open "storj.json".toList, Event.RequestAccess [] [] [], Event.OpenProject,
        Event.UploadObject [] "n/d_5.avro".toList ⟨2020, 1, 1, 0, 0, 30, 0, "UTC".toList⟩,
        Event.Write "payload".toList],
       some "upload.Write: transient".toList) ∧
    storjSnapshot.ConnectStorjUploadData calmWorld flakyUplink false "storj.json".toList
        "payload".toList "5.avro".toList "n/d".toList = none := by
  decide

/-! ### C7 -/

/-- C7, refuted as stated: the endpoint answers with status 500, which is not
2xx, and `CreateSnapshot` returns its body with a nil error. -/
theorem CreateSnapshot_ignores_status :
    world500.httpPost "http://h/fdb/n/d/snapshot".toList
      = Except.ok ⟨500, "Internal Server Error".toList, none⟩ ∧
    ¬ (200 ≤ 500 ∧ 500 < 300) ∧
    CreateSnapshot world500 ⟨"http://h/".toList, "n".toList, "d".toList, "/data".toList⟩ =
      ([Event.HttpPost "http://h/fdb/n/d/snapshot".toList],
       "Internal Server Error".toList, none) :=
  ⟨rfl, by decide, by decide⟩

/-- C7, amended: `CreateSnapshot` makes one HTTP POST, to
ip ++ "fdb/" ++ network ++ "/" ++ dbid ++ "/snapshot"; when the POST fails it
returns that error (and the empty string); for every response received,
whatever its status, it returns the body that was read, verbatim, together with
the error of reading it, which is nil when the read succeeded. -/
theorem CreateSnapshot_result (w : World) (c : ConfigFluree) :
    (∀ err, w.httpPost (c.IP ++ "fdb/".toList ++ c.Network ++ "/".toList ++ c.DBID
        ++ "/snapshot".toList) = Except.error err →
      CreateSnapshot w c = ([Event.HttpPost (c.IP ++ "fdb/".toList ++ c.Network ++ "/".toList
        ++ c.DBID ++ "/snapshot".toList)], [], some err)) ∧
    (∀ resp, w.httpPost (c.IP ++ "fdb/".toList ++ c.Network ++ "/".toList ++ c.DBID
        ++ "/snapshot".toList) = Except.ok resp →
      CreateSnapshot w c = ([Event.HttpPost (c.IP ++ "fdb/".toList ++ c.Network ++ "/".toList
        ++ c.DBID ++ "/snapshot".toList)], resp.Body, resp.ReadErr)) := by
  constructor
  · intro err h
    simp only [CreateSnapshot, h]
  · intro resp h
    simp only [CreateSnapshot, h]

/-- Instance of `CreateSnapshot_result`: a 200 response with body "created". -/
theorem CreateSnapshot_result_witness :
    CreateSnapshot calmWorld ⟨"http://h/".toList, "n".toList, "d".toList, "/data".toList⟩ =
      ([Event.HttpPost "http://h/fdb/n/d/snapshot".toList], "created".toList, none) :=
  (CreateSnapshot_result calmWorld
    ⟨"http://h/".toList, "n".toList, "d".toList, "/data".toList⟩).2
    ⟨200, "created".toList, none⟩ rfl

/-! ### C8 -/

theorem testAction_returns_nil (w : World) (args : List GoString) :
    (testAction w args).2 = ActionResult.returned none := rfl

theorem storeUpload_returns_nil (w : World) (dbg : Bool) (c : ConfigFluree) (f sn : GoString)
    (h : (ReadSnapshot w c sn).2.2 = none) :
    (storeUpload w dbg c f sn).2 = ActionResult.returned none := by
  simp only [storeUpload, h]

/-- C8, the defect: with an object store on which every write fails, the
upload made by the store command and the one made by the test command return
an error, and both commands still end with exit status 0; a configuration file
that is missing ends the same store command with exit status 1. -/
theorem upload_error_exit_status :
    (ConnectStorjUploadData brokenStoreWorld false storjConfigFile [] "10.avro".toList
        "net1/db1".toList).2 = some "upload.Write: connection reset".toList ∧
    main brokenStoreWorld Command.store [] =
      ([Event.Open dbConfigFile, Event.ReadDir "/data/net1/db1/snapshot".toList,
        Event.ReadFile "/data/net1/db1/snapshot/10.avro".toList,
        Event.Open storjConfigFile, Event.RequestAccess [] [] [], Event.OpenProject,
        Event.UploadObject [] "net1/db1_10.avro".toList ⟨2020, 1, 1, 0, 0, 30, 0, "UTC".toList⟩,
        Event.Write []], 0) ∧
    (ConnectStorjUploadData brokenStoreWorld false storjConfigFile
        "\x7b\x27testKey\x27: \x27testValue\x27\x7d".toList "test.json".toList
        "testdb".toList).2 = some "upload.Write: connection reset".toList ∧
    (main brokenStoreWorld Command.test []).2 = 0 ∧
    (main noConfigWorld Command.store []).2 = 1 := by
  decide

/-! ### C9 -/

theorem foldl_append_names (files : List FileInfo) (init : List GoString) :
    files.foldl (fun snapshotList file => snapshotList ++ [file.Name]) init
      = init ++ files.map FileInfo.Name := by
  induction files generalizing init with
  | nil => simp
  | cons a t ih => simp [ih]

/-- C9: `ListSnapshots` makes exactly one call on the environment, the reading
of the directory storageDirectory ++ "/" ++ network ++ "/" ++ dbid ++
"/snapshot"; when that read succeeds it returns, with a nil error, the names
of the entries delivered, all of them and in the delivered order; when the
read fails it returns that error with an empty list. -/
theorem ListSnapshots_verbatim (w : World) (c : ConfigFluree) :
    (ListSnapshots w c).1 = [Event.ReadDir (c.StorageDirectory ++ "/".toList ++ c.Network
      ++ "/".toList ++ c.DBID ++ "/snapshot".toList)] ∧
    (∀ files, w.readDir (c.StorageDirectory ++ "/".toList ++ c.Network ++ "/".toList ++ c.DBID
        ++ "/snapshot".toList) = Except.ok files →
      (ListSnapshots w c).2 = (files.map FileInfo.Name, none) ∧
      (ListSnapshots w c).2.1.length = files.length) ∧
    (∀ err, w.readDir (c.StorageDirectory ++ "/".toList ++ c.Network ++ "/".toList ++ c.DBID
        ++ "/snapshot".toList) = Except.error err →
      (ListSnapshots w c).2 = ([], some err)) := by
  refine ⟨ListSnapshots_trace w c, ?_, ?_⟩
  · intro files h
    simp only [ListSnapshots, h, foldl_append_names, List.nil_append, List.length_map, and_self]
  · intro err h
    simp only [ListSnapshots, h]

/-- Instance of `ListSnapshots_verbatim`: storage directory "/data", network
"net1" and database "db1"; the directory "/data/net1/db1/snapshot" is read and
its four entries come back as delivered, the subdirectory included. -/
theorem ListSnapshots_verbatim_witness :
    (ListSnapshots catalogWorld ⟨[], "net1".toList, "db1".toList, "/data".toList⟩).1
      = [Event.ReadDir "/data/net1/db1/snapshot".toList] ∧
    (ListSnapshots catalogWorld ⟨[], "net1".toList, "db1".toList, "/data".toList⟩).2
      = (["2.avro".toList, "10.avro".toList, "old".toList, "1.avro".toList], none) :=
  ⟨(ListSnapshots_verbatim catalogWorld ⟨[], "net1".toList, "db1".toList, "/data".toList⟩).1,
   ((ListSnapshots_verbatim catalogWorld ⟨[], "net1".toList, "db1".toList, "/data".toList⟩).2.1
      [⟨"2.avro".toList, false⟩, ⟨"10.avro".toList, false⟩, ⟨"old".toList, true⟩,
        ⟨"1.avro".toList, false⟩] rfl).1⟩

/-! ### C10 -/

/-- C10: `fluree.LoadFlureeConfiguration` and `storj.LoadStorjConfiguration`
return an error exactly when the file cannot be opened; for a file that opens,
whatever its content, the error is nil and every field the decoder did not set
is the empty string (a field it did set holds the decoded string). -/
theorem LoadConfiguration_tolerant (w : World) (f : GoString) :
    ((LoadFlureeConfiguration w f).2.2 ≠ none ↔ ∃ err, w.openFile f = Except.error err) ∧
    ((LoadStorjConfiguration w f).2.2 ≠ none ↔ ∃ err, w.openFile f = Except.error err) ∧
    (∀ content, w.openFile f = Except.ok content →
      (LoadFlureeConfiguration w f).2.2 = none ∧
      (LoadStorjConfiguration w f).2.2 = none ∧
      (∀ key, w.jsonString content key = none →
        (key = "ip".toList → (LoadFlureeConfiguration w f).2.1.IP = []) ∧
        (key = "network".toList → (LoadFlureeConfiguration w f).2.1.Network = []) ∧
        (key = "dbid".toList → (LoadFlureeConfiguration w f).2.1.DBID = []) ∧
        (key = "storageDirectory".toList →
          (LoadFlureeConfiguration w f).2.1.StorageDirectory = []) ∧
        (key = "apikey".toList → (LoadStorjConfiguration w f).2.1.ApiKey = []) ∧
        (key = "satellite".toList → (LoadStorjConfiguration w f).2.1.SatelliteAddress = []) ∧
        (key = "bucket".toList → (LoadStorjConfiguration w f).2.1.Bucket = []) ∧
        (key = "uploadPath".toList → (LoadStorjConfiguration w f).2.1.UploadPath = []) ∧
        (key = "encryptionpassphrase".toList →
          (LoadStorjConfiguration w f).2.1.EncryptionPassphrase = [])) ∧
      (∀ key v, w.jsonString content key = some v →
        (key = "ip".toList → (LoadFlureeConfiguration w f).2.1.IP = v) ∧
        (key = "network".toList → (LoadFlureeConfiguration w f).2.1.Network = v) ∧
        (key = "dbid".toList → (LoadFlureeConfiguration w f).2.1.DBID = v) ∧
        (key = "storageDirectory".toList →
          (LoadFlureeConfiguration w f).2.1.StorageDirectory = v) ∧
        (key = "apikey".toList → (LoadStorjConfiguration w f).2.1.ApiKey = v) ∧
        (key = "satellite".toList → (LoadStorjConfiguration w f).2.1.SatelliteAddress = v) ∧
        (key = "bucket".toList → (LoadStorjConfiguration w f).2.1.Bucket = v) ∧
        (key = "uploadPath".toList → (LoadStorjConfiguration w f).2.1.UploadPath = v) ∧
        (key = "encryptionpassphrase".toList →
          (LoadStorjConfiguration w f).2.1.EncryptionPassphrase = v))) := by
  refine ⟨?_, ?_, ?_⟩
  · simp only [LoadFlureeConfiguration]
    cases h : w.openFile f <;> simp
  · simp only [LoadStorjConfiguration]
    cases h : w.openFile f <;> simp
  · intro content h
    simp only [LoadFlureeConfiguration, LoadStorjConfiguration, h, decodeFluree, decodeStorj,
      true_and]
    constructor
    · intro key hk
      refine ⟨?_, ?_, ?_, ?_, ?_, ?_, ?_, ?_, ?_⟩ <;> (intro e; subst e; rw [hk]; rfl)
    · intro key v hk
      refine ⟨?_, ?_, ?_, ?_, ?_, ?_, ?_, ?_, ?_⟩ <;> (intro e; subst e; rw [hk]; rfl)

/-- Instance of `LoadConfiguration_tolerant`: "ok.json" opens with a content
that does not decode cleanly and in which the decoder finds only "network";
"missing.json" does not open. -/
theorem LoadConfiguration_tolerant_witness :
    partialWorld.jsonError "\x7b\"network\": \"n\", \"ip\": 5\x7d".toList ≠ none ∧
    LoadFlureeConfiguration partialWorld "ok.json".toList
      = ([Event.Open "ok.json".toList], ⟨[], "n".toList, [], []⟩, none) ∧
    (LoadFlureeConfiguration partialWorld "ok.json".toList).2.1.IP = [] ∧
    (LoadStorjConfiguration partialWorld "ok.json".toList).2.1.UploadPath = [] ∧
    (LoadStorjConfiguration partialWorld "missing.json".toList).2.2 ≠ none :=
  have h := (LoadConfiguration_tolerant partialWorld "ok.json".toList).2.2
    "\x7b\"network\": \"n\", \"ip\": 5\x7d".toList rfl
  ⟨by decide, by decide,
   (h.2.2.1 "ip".toList rfl).1 rfl,
   (h.2.2.1 "uploadPath".toList rfl).2.2.2.2.2.2.2.1 rfl,
   ((LoadConfiguration_tolerant partialWorld "missing.json".toList).2.1).2
     ⟨"no such file or directory".toList, rfl⟩⟩

/-! ### C11 -/

theorem ConnectStorjUploadData_of_steps (w : World) (dbg : Bool) (f : GoString) (d : Bytes)
    (sn dn : GoString)
    (h0 : (LoadStorjConfiguration w f).2.2 = none)
    (h1 : w.requestAccess (LoadStorjConfiguration w f).2.1.SatelliteAddress
      (LoadStorjConfiguration w f).2.1.ApiKey
      (LoadStorjConfiguration w f).2.1.EncryptionPassphrase = none)
    (h2 : w.openProject = none)
    (h3 : w.uploadObject (LoadStorjConfiguration w f).2.1.Bucket
      ((LoadStorjConfiguration w f).2.1.UploadPath ++ dn ++ "_".toList ++ sn)
      ⟨w.now.year, w.now.month, w.now.day, w.now.hour, w.now.minute, w.now.second + 30, 0,
        w.now.loc⟩ = none)
    (h4 : (w.write 0 d).2 = none)
    (h5 : w.commit = none) :
    ConnectStorjUploadData w dbg f d sn dn =
      ([Event.Open f,
        Event.RequestAccess (LoadStorjConfiguration w f).2.1.SatelliteAddress
          (LoadStorjConfiguration w f).2.1.ApiKey
          (LoadStorjConfiguration w f).2.1.EncryptionPassphrase,
        Event.OpenProject,
        Event.UploadObject (LoadStorjConfiguration w f).2.1.Bucket
          ((LoadStorjConfiguration w f).2.1.UploadPath ++ dn ++ "_".toList ++ sn)
          ⟨w.now.year, w.now.month, w.now.day, w.now.hour, w.now.minute, w.now.second + 30, 0,
            w.now.loc⟩,
        Event.Write d,
        Event.Commit] ++
        (if dbg then (verifyUpload w (LoadStorjConfiguration w f).2.1.Bucket
          ((LoadStorjConfiguration w f).2.1.UploadPath ++ dn ++ "_".toList ++ sn)
          ((LoadStorjConfiguration w f).2.1.UploadPath ++
            ((LoadStorjConfiguration w f).2.1.UploadPath ++ dn ++ "_".toList ++ sn)) d).1
         else []),
       if dbg then (verifyUpload w (LoadStorjConfiguration w f).2.1.Bucket
          ((LoadStorjConfiguration w f).2.1.UploadPath ++ dn ++ "_".toList ++ sn)
          ((LoadStorjConfiguration w f).2.1.UploadPath ++
            ((LoadStorjConfiguration w f).2.1.UploadPath ++ dn ++ "_".toList ++ sn)) d).2
       else none) := by
  simp only [ConnectStorjUploadData, LoadStorjConfiguration_trace, h0, h1, h2, h3, h4, h5]
  cases dbg <;> simp

theorem ConnectStorjUploadData_steps (w : World) (dbg : Bool) (f : GoString) (d : Bytes)
    (sn dn : GoString)
    (h : (ConnectStorjUploadData w dbg f d sn dn).2 = none ∨
      ∃ e ∈ (ConnectStorjUploadData w dbg f d sn dn).1, e.isReadBack = true) :
    (LoadStorjConfiguration w f).2.2 = none ∧
    w.requestAccess (LoadStorjConfiguration w f).2.1.SatelliteAddress
      (LoadStorjConfiguration w f).2.1.ApiKey
      (LoadStorjConfiguration w f).2.1.EncryptionPassphrase = none ∧
    w.openProject = none ∧
    w.uploadObject (LoadStorjConfiguration w f).2.1.Bucket
      ((LoadStorjConfiguration w f).2.1.UploadPath ++ dn ++ "_".toList ++ sn)
      ⟨w.now.year, w.now.month, w.now.day, w.now.hour, w.now.minute, w.now.second + 30, 0,
        w.now.loc⟩ = none ∧
    (w.write 0 d).2 = none ∧
    w.commit = none := by
  simp only [ConnectStorjUploadData, LoadStorjConfiguration_trace] at h
  split at h
  · simp [Event.isReadBack] at h
  split at h
  · simp [Event.isReadBack] at h
  split at h
  · simp [Event.isReadBack] at h
  split at h
  · simp [Event.isReadBack] at h
  split at h
  · simp [Event.isReadBack] at h
  split at h
  · simp [Event.isReadBack] at h
  exact ⟨by assumption, by assumption, by assumption, by assumption, by assumption,
    by assumption⟩

theorem verifyUpload_nil (w : World) (b n up : GoString) (d : Bytes)
    (h : (verifyUpload w b n up d).2 = none) :
    w.readAll b n = (d, none) ∧
    (verifyUpload w b n up d).1 =
      [Event.DownloadObject b n, Event.ReadAll b n,
        Event.WriteFile "test/downloadeddata_.avro".toList d] := by
  simp only [verifyUpload] at h ⊢
  split at h
  · simp at h
  · rename_i hopen
    split at h
    · simp at h
    · rename_i hread
      split at h
      · simp at h
      · rename_i hne
        have hfst : d = (w.readAll b n).1 := not_not.mp hne
        refine ⟨Prod.ext hfst.symm hread, ?_⟩
        simp only [hopen, hread, hne, if_false]
        rw [← hfst]
        rfl

theorem verifyUpload_mismatch (w : World) (b n up : GoString) (d : Bytes)
    (hmem : Event.ReadAll b n ∈ (verifyUpload w b n up d).1)
    (hread : (w.readAll b n).2 = none) (hne : (w.readAll b n).1 ≠ d) :
    (verifyUpload w b n up d).2 = some "error: uploaded data != downloaded data".toList := by
  have hne2 : d ≠ (w.readAll b n).1 := fun e => hne e.symm
  simp only [verifyUpload] at hmem ⊢
  split at hmem
  · simp at hmem
  · rename_i hopen
    simp only [hopen, hread, hne2, ne_eq, not_false_eq_true, if_true]

/-- C11: with DEBUG on, `storj.ConnectStorjUploadData` returns nil only after
it has uploaded, committed and downloaded again the object of the same bucket
and the same name, and the bytes read back, read without error, are the
payload; and once the read-back has been made without error, bytes that differ
from the payload give the error "error: uploaded data != downloaded data". -/
theorem ConnectStorjUploadData_verified (w : World) (f : GoString) (d : Bytes)
    (sn dn : GoString) :
    ((ConnectStorjUploadData w true f d sn dn).2 = none →
      w.readAll (LoadStorjConfiguration w f).2.1.Bucket
          ((LoadStorjConfiguration w f).2.1.UploadPath ++ dn ++ "_".toList ++ sn) = (d, none) ∧
      (ConnectStorjUploadData w true f d sn dn).1 =
        [Event.Open f,
         Event.RequestAccess (LoadStorjConfiguration w f).2.1.SatelliteAddress
           (LoadStorjConfiguration w f).2.1.ApiKey
           (LoadStorjConfiguration w f).2.1.EncryptionPassphrase,
         Event.OpenProject,
         Event.UploadObject (LoadStorjConfiguration w f).2.1.Bucket
           ((LoadStorjConfiguration w f).2.1.UploadPath ++ dn ++ "_".toList ++ sn)
           ⟨w.now.year, w.now.month, w.now.day, w.now.hour, w.now.minute, w.now.second + 30,
             0, w.now.loc⟩,
         Event.Write d,
         Event.Commit,
         Event.DownloadObject (LoadStorjConfiguration w f).2.1.Bucket
           ((LoadStorjConfiguration w f).2.1.UploadPath ++ dn ++ "_".toList ++ sn),
         Event.ReadAll (LoadStorjConfiguration w f).2.1.Bucket
           ((LoadStorjConfiguration w f).2.1.UploadPath ++ dn ++ "_".toList ++ sn),
         Event.WriteFile "test/downloadeddata_.avro".toList d]) ∧
    (Event.ReadAll (LoadStorjConfiguration w f).2.1.Bucket
        ((LoadStorjConfiguration w f).2.1.UploadPath ++ dn ++ "_".toList ++ sn)
        ∈ (ConnectStorjUploadData w true f d sn dn).1 →
      (w.readAll (LoadStorjConfiguration w f).2.1.Bucket
        ((LoadStorjConfiguration w f).2.1.UploadPath ++ dn ++ "_".toList ++ sn)).2 = none →
      (w.readAll (LoadStorjConfiguration w f).2.1.Bucket
        ((LoadStorjConfiguration w f).2.1.UploadPath ++ dn ++ "_".toList ++ sn)).1 ≠ d →
      (ConnectStorjUploadData w true f d sn dn).2
        = some "error: uploaded data != downloaded data".toList) := by
  constructor
  · intro h
    obtain ⟨h0, h1, h2, h3, h4, h5⟩ := ConnectStorjUploadData_steps w true f d sn dn (Or.inl h)
    rw [ConnectStorjUploadData_of_steps w true f d sn dn h0 h1 h2 h3 h4 h5] at h ⊢
    simp only [if_true] at h ⊢
    obtain ⟨hr, ht⟩ := verifyUpload_nil w _ _ _ d h
    exact ⟨hr, by rw [ht]; rfl⟩
  · intro hmem hread hne
    obtain ⟨h0, h1, h2, h3, h4, h5⟩ := ConnectStorjUploadData_steps w true f d sn dn
      (Or.inr ⟨_, hmem, rfl⟩)
    rw [ConnectStorjUploadData_of_steps w true f d sn dn h0 h1 h2 h3 h4 h5] at hmem ⊢
    simp only [if_true, List.mem_append] at hmem ⊢
    rcases hmem with hmem | hmem
    · simp at hmem
    · exact verifyUpload_mismatch w _ _ _ d hmem hread hne

/-- Instances of `ConnectStorjUploadData_verified`: an object that reads back
as the payload "payload" (nil is returned), and one that reads back as "pay"
(the mismatch error is returned). -/
theorem ConnectStorjUploadData_verified_witness :
    mirrorWorld.readAll [] "n/d_5.avro".toList = ("payload".toList, none) ∧
    (ConnectStorjUploadData truncatingWorld true "storj.json".toList "payload".toList
      "5.avro".toList "n/d".toList).2
      = some "error: uploaded data != downloaded data".toList :=
  ⟨((ConnectStorjUploadData_verified mirrorWorld "storj.json".toList "payload".toList
      "5.avro".toList "n/d".toList).1 (by decide)).1,
   (ConnectStorjUploadData_verified truncatingWorld "storj.json".toList "payload".toList
      "5.avro".toList "n/d".toList).2 (by decide) (by decide) (by decide)⟩

/-! ### C12 -/

theorem digitChar_digitVal (c : Char) (h : isDigit c = true) : digitChar (digitVal c) = c := by
  simp only [isDigit, Bool.and_eq_true, decide_eq_true_eq] at h
  have hv : c.toNat - 48 < 10 := by omega
  have hc : 48 + (c.toNat - 48) = c.toNat := by omega
  unfold digitChar digitVal
  rw [hc]
  exact Char.ofNat_toNat c

theorem formatBits_fuel (k1 k2 u : Nat) (acc : GoString) (h1 : u ≤ k1) (h2 : u ≤ k2) :
    formatBits k1 u acc = formatBits k2 u acc := by
  induction k1 generalizing k2 u acc with
  | zero =>
    have hu : u = 0 := by omega
    subst hu
    cases k2 <;> simp [formatBits]
  | succ k ih =>
    cases k2 with
    | zero =>
      have hu : u = 0 := by omega
      subst hu
      simp [formatBits]
    | succ k' =>
      simp only [formatBits]
      split_ifs with h10
      · exact ih k' (u / 10) _ (by omega) (by omega)
      · rfl

theorem formatDecimal_digit (v : Nat) (h : v < 10) : formatDecimal v = [digitChar v] := by
  unfold formatDecimal
  cases v with
  | zero => rfl
  | succ n =>
    have : ¬ (n + 1 ≥ 10) := by omega
    simp [formatBits, this]

theorem formatDecimal_step (v d : Nat) (hv : 1 ≤ v) (hd : d < 10) :
    formatDecimal (v * 10 + d) = formatDecimal v ++ [digitChar d] := by
  unfold formatDecimal
  have hu : v * 10 + d = (v * 10 + d - 1) + 1 := by omega
  have hge : v * 10 + d ≥ 10 := by omega
  have hdiv : (v * 10 + d) / 10 = v := by omega
  have hmod : (v * 10 + d) % 10 = d := by omega
  conv_lhs => rw [hu, formatBits]
  rw [← hu, if_pos hge, hdiv, hmod, formatBits_acc]
  rw [formatBits_fuel (v * 10 + d - 1) v v [] (by omega) (le_refl v)]

theorem one_le_decVal (c : Char) (t : GoString) (hc : isDigit c = true) (h0 : c ≠ '0') :
    1 ≤ decVal (c :: t) := by
  have hv : 1 ≤ digitVal c := by
    by_contra hlt
    have hz : digitVal c = 0 := by omega
    have := digitChar_digitVal c hc
    rw [hz] at this
    exact h0 this.symm
  have := le_foldl_dec t (0 * 10 + digitVal c)
  simp only [decVal, List.foldl_cons]
  omega

theorem formatDecimal_decVal (t : GoString) (hnum : isNumeral t = true)
    (hlead : t = ['0'] ∨ t.head? ≠ some '0') : formatDecimal (decVal t) = t := by
  induction t using List.reverseRecOn with
  | nil => simp [isNumeral] at hnum
  | append_singleton xs c ih =>
    have hall : (xs ++ [c]).all isDigit = true := by
      simp only [isNumeral, Bool.and_eq_true] at hnum
      exact hnum.2
    simp only [List.all_append, List.all_cons, List.all_nil, Bool.and_true,
      Bool.and_eq_true] at hall
    rw [decVal_snoc]
    cases xs with
    | nil =>
      have hd := digitVal_le hall.2
      simp only [decVal, List.foldl_nil, Nat.zero_mul, Nat.zero_add, List.nil_append]
      rw [formatDecimal_digit _ (by omega), digitChar_digitVal c hall.2]
    | cons a rest =>
      have ha : isDigit a = true := by
        have := hall.1
        simp only [List.all_cons, Bool.and_eq_true] at this
        exact this.1
      have hne0 : a ≠ '0' := by
        rcases hlead with h | h
        · simp at h
        · simpa using h
      have hxs : isNumeral (a :: rest) = true := by
        have := hall.1
        simpa [isNumeral] using this
      have ih' := ih hxs (Or.inr (by simpa using hne0))
      have h1 := one_le_decVal a rest ha hne0
      rw [formatDecimal_step _ _ h1 (by have := digitVal_le hall.2; omega), ih',
        digitChar_digitVal c hall.2]

theorem GetLatestSnapshot_of_numerals (ns : List GoString)
    (hnum : ∀ d ∈ ns, isNumeral d = true) (hrange : ∀ d ∈ ns, decVal d ≤ maxInt) :
    GetLatestSnapshot (ns.map (fun d => d ++ avro))
      = (formatDecimal (maxOf (ns.map decVal)) ++ avro, none) := by
  have hmap : (ns.map (fun d => d ++ avro)).map (fun s => textValue (textBefore s))
      = ns.map decVal := by
    rw [List.map_map]
    apply List.map_congr_left
    intro d hd
    have hall : d.all isDigit = true := by
      have := hnum d hd
      simp only [isNumeral, Bool.and_eq_true] at this
      exact this.2
    simp only [Function.comp, textBefore_numeral d hall]
    exact textValue_numeral d (hnum d hd) (hrange d hd)
  rw [GetLatestSnapshot_eq, hmap]

theorem GetLatestSnapshot_mem_of_canonical (ns : List GoString) (hne : ns ≠ [])
    (hcan : ∀ d ∈ ns, isCanonical d = true) :
    GetLatestSnapshot (ns.map (fun d => d ++ avro)) =
        ((GetLatestSnapshot (ns.map (fun d => d ++ avro))).1, none) ∧
    (GetLatestSnapshot (ns.map (fun d => d ++ avro))).1 ∈ ns.map (fun d => d ++ avro) := by
  have hparts : ∀ d ∈ ns, isNumeral d = true ∧ (d = ['0'] ∨ d.head? ≠ some '0') ∧
      decVal d ≤ maxInt := by
    intro d hd
    have := hcan d hd
    simp only [isCanonical, Bool.and_eq_true, Bool.or_eq_true, decide_eq_true_eq] at this
    exact ⟨this.1.1, this.1.2, this.2⟩
  have heq := GetLatestSnapshot_of_numerals ns (fun d hd => (hparts d hd).1)
    (fun d hd => (hparts d hd).2.2)
  have hmem := maxOf_mem (ns.map decVal) (by simpa using hne)
  obtain ⟨d, hd, hval⟩ := List.mem_map.1 hmem
  have hfmt := formatDecimal_decVal d (hparts d hd).1 (hparts d hd).2.1
  rw [heq]
  refine ⟨rfl, ?_⟩
  simp only
  rw [← hval, hfmt]
  exact List.mem_map.2 ⟨d, hd, rfl⟩

theorem storeUpload_reads (w : World) (dbg : Bool) (c : ConfigFluree) (f sn : GoString) :
    Event.ReadFile (c.StorageDirectory ++ "/".toList ++ c.Network ++ "/".toList ++ c.DBID
      ++ "/snapshot/".toList ++ sn) ∈ (storeUpload w dbg c f sn).1 := by
  simp only [storeUpload]
  split
  · simp [ReadSnapshot_trace]
  · simp [ReadSnapshot_trace]

/-- C12: for every non-empty list of canonical snapshot names ("<n>.avro", n
in decimal digits without sign or leading zero, at most 2^63 - 1),
`GetLatestSnapshot` returns, with a nil error, a name that is an element of the
list; the store command run without a snapshot name on such a listing then
reads the file of a listed entry; and for ["007.avro"] the name returned,
"7.avro", is not in the list. -/
theorem GetLatestSnapshot_listed :
    (∀ ns : List GoString, ns ≠ [] → (∀ d ∈ ns, isCanonical d = true) →
      (GetLatestSnapshot (ns.map (fun d => d ++ avro))).2 = none ∧
      (GetLatestSnapshot (ns.map (fun d => d ++ avro))).1 ∈ ns.map (fun d => d ++ avro)) ∧
    (∀ (w : World) (args : List GoString) (ns : List GoString),
      (storeArgs args).snapshotName = [] →
      (LoadFlureeConfiguration w (storeArgs args).fullFileNameFlureeDB).2.2 = none →
      (ListSnapshots w (LoadFlureeConfiguration w (storeArgs args).fullFileNameFlureeDB).2.1).2
        = (ns.map (fun d => d ++ avro), none) →
      ns ≠ [] → (∀ d ∈ ns, isCanonical d = true) →
      ∃ name ∈ ns.map (fun d => d ++ avro),
        Event.ReadFile
          ((LoadFlureeConfiguration w (storeArgs args).fullFileNameFlureeDB).2.1.StorageDirectory
            ++ "/".toList
            ++ (LoadFlureeConfiguration w (storeArgs args).fullFileNameFlureeDB).2.1.Network
            ++ "/".toList
            ++ (LoadFlureeConfiguration w (storeArgs args).fullFileNameFlureeDB).2.1.DBID
            ++ "/snapshot/".toList ++ name) ∈ (storeAction w args).1) ∧
    (GetLatestSnapshot ["007.avro".toList] = ("7.avro".toList, none) ∧
      "7.avro".toList ∉ ["007.avro".toList]) := by
  refine ⟨?_, ?_, by decide⟩
  · intro ns hne hcan
    obtain ⟨h1, h2⟩ := GetLatestSnapshot_mem_of_canonical ns hne hcan
    exact ⟨by rw [h1], h2⟩
  · intro w args ns hname hl hs hne hcan
    obtain ⟨h1, h2⟩ := GetLatestSnapshot_mem_of_canonical ns hne hcan
    refine ⟨_, h2, ?_⟩
    have hs1 : (ListSnapshots w
        (LoadFlureeConfiguration w (storeArgs args).fullFileNameFlureeDB).2.1).2.2 = none := by
      rw [hs]
    have hs2 : (ListSnapshots w
        (LoadFlureeConfiguration w (storeArgs args).fullFileNameFlureeDB).2.1).2.1
          = ns.map (fun d => d ++ avro) := by
      rw [hs]
    have hg : (GetLatestSnapshot (ns.map (fun d => d ++ avro))).2 = none := by rw [h1]
    simp only [storeAction, hl, hs1, hs2, hname, ne_eq, not_true_eq_false, if_false, hg]
    exact List.mem_append_right _ (storeUpload_reads w _ _ _ _)

/-- Instance of `GetLatestSnapshot_listed`: the listing "2.avro", "10.avro",
"1.avro" gives "10.avro", and the store command reads
"/data/net1/db1/snapshot/10.avro". -/
theorem GetLatestSnapshot_listed_witness :
    GetLatestSnapshot ["2.avro".toList, "10.avro".toList, "1.avro".toList]
      = ("10.avro".toList, none) ∧
    (GetLatestSnapshot (["2".toList, "10".toList, "1".toList].map (fun d => d ++ avro))).1
      ∈ ["2".toList, "10".toList, "1".toList].map (fun d => d ++ avro) ∧
    Event.ReadFile "/data/net1/db1/snapshot/10.avro".toList ∈ (storeAction numberedWorld []).1 ∧
    (∃ name ∈ ["2".toList, "10".toList, "1".toList].map (fun d => d ++ avro),
      Event.ReadFile ("/data".toList ++ "/".toList ++ "net1".toList ++ "/".toList
        ++ "db1".toList ++ "/snapshot/".toList ++ name) ∈ (storeAction numberedWorld []).1) :=
  ⟨by decide,
   (GetLatestSnapshot_listed.1 ["2".toList, "10".toList, "1".toList] (by decide)
      (by decide)).2,
   by decide,
   GetLatestSnapshot_listed.2.1 numberedWorld [] ["2".toList, "10".toList, "1".toList]
      (by decide) (by decide) (by decide) (by decide) (by decide)⟩

/-! ### C13 -/

theorem norm_of_nonneg (hi lo base : Int) (h0 : 0 ≤ lo) :
    norm hi lo base = (hi + lo / base, lo % base) := by
  have hneg : ¬ lo < 0 := not_lt.mpr h0
  simp only [norm, hneg, if_false]
  split_ifs with h
  · have := Int.emod_def lo base
    refine Prod.ext rfl ?_
    simp only
    rw [this]
    ring
  · have hlt : lo < base := not_le.mp h
    rw [Int.ediv_eq_zero_of_lt h0 hlt, Int.emod_eq_of_lt h0 hlt]
    simp

theorem timeDate_fixed_offset (lookup : Int → Zone) (o : Int) (t : Time) (unix : Int)
    (hfix : ∀ x, (lookup x).offset = o) (hw : isWallClockOf lookup t unix = true) :
    timeDate lookup ⟨t.year, t.month, t.day, t.hour, t.minute, t.second + 30, 0, t.loc⟩
      = (unix + 30, 0) := by
  simp only [isWallClockOf, Bool.and_eq_true, decide_eq_true_eq, hfix] at hw
  obtain ⟨⟨hm1, hm12, hd1, -, hh, hmi, hs⟩, heq⟩ := hw
  have hn1 : norm t.year ((t.month : Int) - 1) 12 = (t.year, (t.month : Int) - 1) := by
    rw [norm_of_nonneg _ _ _ (by omega)]
    refine Prod.ext ?_ ?_ <;> simp only <;> omega
  have hn2 : norm ((t.second + 30 : Nat) : Int) ((0 : Nat) : Int) 1000000000
      = (((t.second + 30 : Nat) : Int), 0) := by
    rw [norm_of_nonneg _ _ _ (by simp)]
    simp
  have hn3 := norm_of_nonneg (t.minute : Int) ((t.second + 30 : Nat) : Int) 60 (by omega)
  have hn4 := norm_of_nonneg (t.hour : Int)
    ((t.minute : Int) + ((t.second + 30 : Nat) : Int) / 60) 60 (by omega)
  have hn5 := norm_of_nonneg (t.day : Int)
    ((t.hour : Int) + ((t.minute : Int) + ((t.second + 30 : Nat) : Int) / 60) / 60) 24
    (by omega)
  simp only [timeDate, hn1, hn2, hn3, hn4, hn5, hfix]
  refine Prod.ext ?_ rfl
  simp only [civilSeconds, sub_add_cancel] at heq ⊢
  split_ifs at heq ⊢ <;> omega

theorem ConnectStorjUploadData_expires (w : World) (dbg : Bool) (f : GoString) (d : Bytes)
    (sn dn b n : GoString) (x : DateArgs)
    (h : Event.UploadObject b n x ∈ (ConnectStorjUploadData w dbg f d sn dn).1) :
    x = ⟨w.now.year, w.now.month, w.now.day, w.now.hour, w.now.minute, w.now.second + 30, 0,
      w.now.loc⟩ := by
  have hv := verifyUpload_no_upload w
  simp only [ConnectStorjUploadData, LoadStorjConfiguration_trace] at h
  repeat' split at h
  all_goals simp at h
  all_goals first
    | exact h.2.2
    | (rcases h with h | h
       · exact h.2.2
       · exact absurd h (hv _ _ _ _ _ _ _))

theorem upload_expiry_fixed_offset (w : World) (dbg : Bool) (f : GoString) (d : Bytes)
    (sn dn b n : GoString) (x : DateArgs) (lookup : Int → Zone) (o unix : Int)
    (h : Event.UploadObject b n x ∈ (ConnectStorjUploadData w dbg f d sn dn).1)
    (hfix : ∀ s, (lookup s).offset = o) (hw : isWallClockOf lookup w.now unix = true) :
    timeDate lookup x = (unix + 30, 0) ∧ x.loc = w.now.loc := by
  rw [ConnectStorjUploadData_expires w dbg f d sn dn b n x h]
  exact ⟨timeDate_fixed_offset lookup o w.now unix hfix hw, rfl⟩

theorem upload_expiry_new_year :
    isWallClockOf utcLookup newYearWorld.now 1577836785 = true ∧
    Event.UploadObject [] "n/d_5.avro".toList ⟨2019, 12, 31, 23, 59, 75, 0, "UTC".toList⟩
      ∈ (ConnectStorjUploadData newYearWorld false "storj.json".toList "payload".toList
          "5.avro".toList "n/d".toList).1 ∧
    timeDate utcLookup ⟨2019, 12, 31, 23, 59, 75, 0, "UTC".toList⟩ = (1577836785 + 30, 0) ∧
    isWallClockOf utcLookup ⟨2020, 1, 1, 0, 0, 15, "UTC".toList⟩ (1577836785 + 30) = true := by
  decide

/-- C13, the defect: on a machine in the zone America/New_York the wall clock
2021-11-07 01:15:00 is shown twice, at 05:15:00 UTC (daylight time) and at
06:15:00 UTC (standard time).  An upload started at the second of these
instants carries the expiry `time.Date(2021, 11, 7, 1, 15, 30, 0, Local)`,
which is 05:15:30 UTC: 59 minutes and 30 seconds before the start, not 30
seconds after it. -/
theorem upload_expiry_fall_back :
    isWallClockOf newYorkLookup fallBackWorld.now 1636262100 = true ∧
    isWallClockOf newYorkLookup fallBackWorld.now 1636265700 = true ∧
    Event.UploadObject [] "n/d_5.avro".toList ⟨2021, 11, 7, 1, 15, 30, 0, "Local".toList⟩
      ∈ (ConnectStorjUploadData fallBackWorld false "storj.json".toList "payload".toList
          "5.avro".toList "n/d".toList).1 ∧
    timeDate newYorkLookup ⟨2021, 11, 7, 1, 15, 30, 0, "Local".toList⟩ = (1636262130, 0) ∧
    (1636262130 : Int) ≠ 1636265700 + 30 ∧
    (1636262130 : Int) = 1636265700 - 3570 := by
  decide

end StorjFluree
